import Mathlib

/-
  Verification development for the `mmu` crate: a shallow embedding of the
  x86_64 page-table entry bitfield (src/src/x86_64/page_table.rs) and the
  recursive table walker (src/src/x86_64/recursive_mapper.rs), together with
  theorems settling the spec claims.

  Modelling conventions:
  * a page-table entry is its 64-bit word, represented as a `Nat` (all masks
    are applied exactly as the Rust code applies them on `u64`; values are
    produced by the modelled operations and stay below 2^64 whenever the
    inputs do);
  * table memory is a map `virtual table base address -> slot index -> word`;
    the walker receives the two capabilities `alloc_frame` (modelled as a
    function from the call counter to a `Result`, which captures any
    deterministic `FnMut() -> Result<PhysicalAddress>` closure) and
    `translate_address` (a function physical -> virtual);
  * a Rust panic (a failed `assert!` or an out-of-bounds table index) is
    modelled as `none`; recoverable errors are `Except MErr`;
  * every externally visible action of a walk (allocation-capability call,
    translation-capability call, `PageTable::clear`, volatile entry write) is
    recorded in an event trace so that counting and ordering claims can be
    stated.
-/

set_option maxHeartbeats 1000000

namespace Mmu

/-- Page size in bytes (`PAGE_SIZE` in src/src/x86_64/recursive_mapper.rs). -/
def PAGE_SIZE : Nat := 0x1000

/-- Entries per table (`PT_SIZE`). -/
def PT_SIZE : Nat := 512

/-- Extent of a level-1 entry (`PT1_EXTENT = PAGE_SIZE * PT_SIZE`). -/
def PT1_EXTENT : Nat := PAGE_SIZE * PT_SIZE

/-- Extent of a level-2 entry (`PT2_EXTENT = PT_SIZE * PT1_EXTENT`). -/
def PT2_EXTENT : Nat := PT_SIZE * PT1_EXTENT

/-- Extent of a level-3 entry (`PT3_EXTENT = PT_SIZE * PT2_EXTENT`). -/
def PT3_EXTENT : Nat := PT_SIZE * PT2_EXTENT

/-- All 64 bits set; used to model bitwise NOT on `u64`. -/
def U64MASK : Nat := 2 ^ 64 - 1

/-- Bitwise NOT of a `u64` value (Rust `!x` on `u64`). -/
def notU64 (x : Nat) : Nat := U64MASK ^^^ x

/-- The physical-frame field mask `0x000ffffffffff000` used by
`Entry::address` and `Entry::set_address` (src/src/x86_64/page_table.rs). -/
def ADDR_MASK : Nat := 0x000ffffffffff000

namespace Entry

/-- Rust `Entry::address`: `self.read() & 0x000ffffffffff000`. -/
def address (e : Nat) : Nat := e &&& ADDR_MASK

/-- The two assertions guarding `Entry::set_address`:
`assert!(address % 0x1000 == 0)` and
`assert!(address.as_u64() < 0xfff0_0000_0000_0000)`. -/
def setAddressPre (a : Nat) : Prop := a % 0x1000 = 0 ∧ a < 0xfff0000000000000

instance (a : Nat) : Decidable (setAddressPre a) :=
  inferInstanceAs (Decidable (_ ∧ _))

/-- Rust `Entry::set_address` update:
`(entry & !0x000ffffffffff000) | address.as_u64()`. -/
def set_address (e a : Nat) : Nat := (e &&& notU64 ADDR_MASK) ||| a

/-- Rust `Entry::bit` via the `get_bit!` macro: `(field & (1 << bit)) > 0`. -/
def bit (e b : Nat) : Bool := decide (0 < e &&& (1 <<< b))

/-- Rust `Entry::set_bit` via `set_bit!` with `enabled = true`:
`field |= 1 << bit`. -/
def set_bit (e b : Nat) : Nat := e ||| (1 <<< b)

/-- Rust `Entry::unset_bit` via `set_bit!` with `enabled = false`:
`field &= !(1 << bit)`. -/
def unset_bit (e b : Nat) : Nat := e &&& notU64 (1 <<< b)

/-- Rust `Entry::avail`: `((self.read() & 0x0e00) >> 9) as u8`. -/
def avail (e : Nat) : Nat := (e &&& 0x0e00) >>> 9

/-- Rust `Entry::set_avail` update: `(entry & !0x0e00) | ((val as u64) << 9)`. -/
def set_avail (e v : Nat) : Nat := (e &&& notU64 0x0e00) ||| (v <<< 9)

end Entry

/-- Bit positions of the `Bit` enum in src/src/x86_64/page_table.rs. -/
def BitPresent : Nat := 0

/-- Bit position of `Bit::Writable`. -/
def BitWritable : Nat := 1

/-- Bit position of `Bit::User`. -/
def BitUser : Nat := 2

/-- Bit position of `Bit::Huge`. -/
def BitHuge : Nat := 7

/-- The Error enum of the crate (src/src/result.rs). -/
inductive MErr where
  | NoMemory
  | Overlap
deriving DecidableEq

instance : DecidableEq (Except MErr Nat) := fun a b =>
  match a, b with
  | .error x, .error y =>
      if h : x = y then .isTrue (by rw [h]) else .isFalse (by simp [h])
  | .error _, .ok _ => .isFalse (by simp)
  | .ok _, .error _ => .isFalse (by simp)
  | .ok x, .ok y =>
      if h : x = y then .isTrue (by rw [h]) else .isFalse (by simp [h])

/-- Externally visible actions performed during a walk. -/
inductive Event where
  /-- One invocation of the allocation capability, with its result. -/
  | allocCall (res : Except MErr Nat)
  /-- One invocation of the translation capability: physical input, virtual output. -/
  | trCall (phys virt : Nat)
  /-- One `PageTable::clear()` of the table at the given virtual base address. -/
  | clearTable (virt : Nat)
  /-- One volatile write of `word` into slot `idx` of the table at virtual base `virt`. -/
  | writeEntry (virt idx word : Nat)
deriving DecidableEq

/-- Table memory: virtual table base address, slot index, entry word. -/
def Mem : Type := Nat → Nat → Nat

/-- Write one entry word (one volatile `Entry` store). -/
def writeMem (m : Mem) (a i w : Nat) : Mem :=
  fun x j => if x = a ∧ j = i then w else m x j

/-- Rust `PageTable::clear`: zero all 512 entries of the table at base `a`. -/
def clearMem (m : Mem) (a : Nat) : Mem :=
  fun x j => if x = a then 0 else m x j

/-- State threaded through a walk: the table memory, the number of
allocation-capability calls made so far (the `FnMut` call counter), and the
event trace. -/
structure WalkSt where
  mem : Mem
  allocIdx : Nat
  trace : List Event

/-- The all-zero tree with no calls made yet. -/
def zeroSt : WalkSt := ⟨fun _ _ => 0, 0, []⟩

/-- Rust `RecursiveMapper::ensure_subtable` (src/src/x86_64/recursive_mapper.rs
lines 47-68), acting on the entry in slot `idx` of the table at virtual base
`tva`.  Returns `none` on a panic (the `set_address` assertions), otherwise
the updated state and the `Result`. -/
def ensure_subtable (alloc : Nat → Except MErr Nat) (tr : Nat → Nat)
    (s : WalkSt) (tva idx : Nat) : Option (WalkSt × Except MErr Unit) :=
  let e := s.mem tva idx
  if !(Entry.bit e BitPresent) then
    match alloc s.allocIdx with
    | .error er =>
        some (⟨s.mem, s.allocIdx + 1, s.trace ++ [.allocCall (.error er)]⟩,
              .error er)
    | .ok frame =>
        let s1 : WalkSt :=
          ⟨s.mem, s.allocIdx + 1, s.trace ++ [.allocCall (.ok frame)]⟩
        let addr := tr frame
        let s2 : WalkSt := ⟨s1.mem, s1.allocIdx, s1.trace ++ [.trCall frame addr]⟩
        let s3 : WalkSt :=
          ⟨clearMem s2.mem addr, s2.allocIdx, s2.trace ++ [.clearTable addr]⟩
        if Entry.setAddressPre frame then
          let w1 := Entry.set_address (s3.mem tva idx) frame
          let s4 : WalkSt :=
            ⟨writeMem s3.mem tva idx w1, s3.allocIdx, s3.trace ++ [.writeEntry tva idx w1]⟩
          let w2 := Entry.set_bit (s4.mem tva idx) BitPresent
          let s5 : WalkSt :=
            ⟨writeMem s4.mem tva idx w2, s4.allocIdx, s4.trace ++ [.writeEntry tva idx w2]⟩
          let w3 := Entry.set_bit (s5.mem tva idx) BitWritable
          let s6 : WalkSt :=
            ⟨writeMem s5.mem tva idx w3, s5.allocIdx, s5.trace ++ [.writeEntry tva idx w3]⟩
          let w4 := Entry.set_bit (s6.mem tva idx) BitUser
          let s7 : WalkSt :=
            ⟨writeMem s6.mem tva idx w4, s6.allocIdx, s6.trace ++ [.writeEntry tva idx w4]⟩
          some (s7, .ok ())
        else none
  else if Entry.bit e BitHuge then
    some (s, .error .Overlap)
  else
    some (s, .ok ())

/-- Rust `RecursiveMapper::descend_entry` (lines 70-75): ensure a sub-table
behind the entry, then translate its frame address and return the virtual
base address of the sub-table. -/
def descend_entry (alloc : Nat → Except MErr Nat) (tr : Nat → Nat)
    (s : WalkSt) (tva idx : Nat) : Option (WalkSt × Except MErr Nat) :=
  match ensure_subtable alloc tr s tva idx with
  | none => none
  | some (s1, .error er) => some (s1, .error er)
  | some (s1, .ok ()) =>
      let phys := Entry.address (s1.mem tva idx)
      let virt := tr phys
      some (⟨s1.mem, s1.allocIdx, s1.trace ++ [.trCall phys virt]⟩, .ok virt)

/-- Canonical-bit masking in `RecursiveMapper::entry`:
`virt_addr.as_u64() & !0xffff_0000_0000_0000`. -/
def maskVA (virt_addr : Nat) : Nat := virt_addr &&& notU64 0xffff000000000000

/-- Level-4 index: `virt_addr / PT3_EXTENT`. -/
def pt4_idx (va : Nat) : Nat := va / PT3_EXTENT

/-- Level-3 index: `(virt_addr % PT3_EXTENT) / PT2_EXTENT`. -/
def pt3_idx (va : Nat) : Nat := (va % PT3_EXTENT) / PT2_EXTENT

/-- Level-2 index: `(virt_addr % PT2_EXTENT) / PT1_EXTENT`. -/
def pt2_idx (va : Nat) : Nat := (va % PT2_EXTENT) / PT1_EXTENT

/-- Level-1 index: `(virt_addr % PT1_EXTENT) / PAGE_SIZE`. -/
def pt1_idx (va : Nat) : Nat := (va % PT1_EXTENT) / PAGE_SIZE

/-- Rust `RecursiveMapper::entry` (lines 85-118).  `pt4va` is the virtual
address of the root table (`self.pt4`).  The five leading `assert!`s are
modelled as `none` on their failure conditions; note that the first one,
`assert!(!(level < 1 && level > 4))`, panics exactly when
`level < 1 ∧ 4 < level` holds, which is never.  Each Rust table indexing
`table[idx as usize]` is modelled with its 512-slot bounds check (`none` on
out-of-bounds, the Rust index panic).  The returned static mutable Entry reference is
modelled as the pair (table virtual base address, slot index). -/
def entry (alloc : Nat → Except MErr Nat) (tr : Nat → Nat) (pt4va : Nat)
    (s : WalkSt) (virt_addr level : Nat) :
    Option (WalkSt × Except MErr (Nat × Nat)) :=
  if level < 1 ∧ 4 < level then none
  else if ¬(level ≠ 1 ∨ virt_addr % PAGE_SIZE = 0) then none
  else if ¬(level ≠ 2 ∨ virt_addr % PT1_EXTENT = 0) then none
  else if ¬(level ≠ 3 ∨ virt_addr % PT2_EXTENT = 0) then none
  else if ¬(level ≠ 4 ∨ virt_addr % PT3_EXTENT = 0) then none
  else
    let va := maskVA virt_addr
    let i4 := pt4_idx va
    if i4 < 512 then
      if level = 4 then some (s, .ok (pt4va, i4))
      else
        match descend_entry alloc tr s pt4va i4 with
        | none => none
        | some (s, .error er) => some (s, .error er)
        | some (s, .ok pt3va) =>
            let i3 := pt3_idx va
            if i3 < 512 then
              if level = 3 then some (s, .ok (pt3va, i3))
              else
                match descend_entry alloc tr s pt3va i3 with
                | none => none
                | some (s, .error er) => some (s, .error er)
                | some (s, .ok pt2va) =>
                    let i2 := pt2_idx va
                    if i2 < 512 then
                      if level = 2 then some (s, .ok (pt2va, i2))
                      else
                        match descend_entry alloc tr s pt2va i2 with
                        | none => none
                        | some (s, .error er) => some (s, .error er)
                        | some (s, .ok pt1va) =>
                            let i1 := pt1_idx va
                            if i1 < 512 then some (s, .ok (pt1va, i1))
                            else none
                    else none
            else none
    else none

/-- Extent of the entry at a given level: `page_size * 512 ^ (level - 1)`. -/
def levelExtent : Nat → Nat
  | 1 => PAGE_SIZE
  | 2 => PT1_EXTENT
  | 3 => PT2_EXTENT
  | 4 => PT3_EXTENT
  | _ => 1

/-- Whether an event is an invocation of the allocation capability. -/
def isAllocCall : Event → Bool
  | .allocCall _ => true
  | _ => false

/-- Number of allocation-capability invocations recorded in a trace. -/
def allocCalls (t : List Event) : Nat := (t.filter isAllocCall).length

/-- Event `a` occurs strictly before event `b` in trace `t`. -/
def precedes (a b : Event) (t : List Event) : Prop :=
  ∃ i j : Nat, i < j ∧ t[i]? = some a ∧ t[j]? = some b

/-- Every frame obtained from the allocation capability has its table zeroed
(`PageTable::clear`), and that clear happens before any entry word carrying
the frame address in its physical-frame field is written. -/
def clearedBeforeLinked (tr : Nat → Nat) (t : List Event) : Prop :=
  ∀ f, Event.allocCall (.ok f) ∈ t →
    Event.clearTable (tr f) ∈ t ∧
    ∀ p i w, Event.writeEntry p i w ∈ t → Entry.address w = f →
      precedes (.clearTable (tr f)) (.writeEntry p i w) t

/-- Trace segment produced by one subtable creation in `ensure_subtable`
starting from a zero entry word: the allocation, the translation of the new
frame, the clear of the new table, and the four volatile read-modify-writes
of the parent entry. -/
def createdSeg (tr : Nat → Nat) (tva idx f : Nat) : List Event :=
  [.allocCall (.ok f), .trCall f (tr f), .clearTable (tr f),
   .writeEntry tva idx f, .writeEntry tva idx (f ||| 1),
   .writeEntry tva idx (f ||| 3), .writeEntry tva idx (f ||| 7)]

/-- Memory after one subtable creation from a zero entry word: the parent
slot `(tva, idx)` holds the linked word `f ||| 7` and the fresh table at
`taddr = tr f` is all zero. -/
def mem1After (m : Mem) (tva idx f taddr : Nat) : Mem :=
  fun x j => if x = tva ∧ j = idx then f ||| 7 else if x = taddr then 0 else m x j

/-- The parent slot into which the j-th table created by a level-1 walk from
the all-zero tree is linked: the 0th fresh table is linked into the root,
the 1st into the fresh level-3 table, the 2nd into the fresh level-2 table
(`fs` is the sequence of frames supplied by the allocation capability). -/
def pathSlot (tr : Nat → Nat) (pt4va va : Nat) (fs : Nat → Nat) :
    Nat → Nat × Nat
  | 0 => (pt4va, pt4_idx (maskVA va))
  | 1 => (tr (fs 0), pt3_idx (maskVA va))
  | 2 => (tr (fs 1), pt2_idx (maskVA va))
  | _ => (0, 0)

/-- The `get_bit!` test agrees with `Nat.testBit`. -/
theorem bit_eq_testBit (e b : Nat) : Entry.bit e b = e.testBit b := by
  rw [Entry.bit, Nat.one_shiftLeft, Nat.and_two_pow]
  cases h : e.testBit b <;> simp [Nat.two_pow_pos]

/-- Bits of the all-ones 64-bit word. -/
theorem testBit_U64MASK (i : Nat) : U64MASK.testBit i = decide (i < 64) := by
  rw [U64MASK]; exact Nat.testBit_two_pow_sub_one 64 i

/-- Bits of the physical-frame field mask: set exactly on bits 12-51. -/
theorem testBit_ADDR_MASK (i : Nat) :
    ADDR_MASK.testBit i = (decide (i < 52) && !decide (i < 12)) := by
  have h : ADDR_MASK = (2 ^ 52 - 1) ^^^ (2 ^ 12 - 1) := by decide
  rw [h, Nat.testBit_xor, Nat.testBit_two_pow_sub_one, Nat.testBit_two_pow_sub_one]
  by_cases h12 : i < 12
  · have h52 : i < 52 := by omega
    simp [h52, h12]
  · by_cases h52 : i < 52 <;> simp [h52, h12]

/-- Bits of a 64-bit complemented value. -/
theorem testBit_notU64 (x i : Nat) :
    (notU64 x).testBit i = ((decide (i < 64)).xor (x.testBit i)) := by
  rw [notU64, Nat.testBit_xor, testBit_U64MASK]

/-- A page-aligned value has its low 12 bits clear. -/
theorem testBit_eq_false_of_align {f : Nat} (hf : f % 4096 = 0) {i : Nat}
    (hi : i < 12) : f.testBit i = false := by
  obtain ⟨k, hk⟩ := Nat.dvd_of_mod_eq_zero hf
  subst hk
  rw [Nat.testBit_to_div_mod]
  have h1 : (4096 : Nat) = 2 ^ i * 2 ^ (12 - i) := by
    rw [← Nat.pow_add]
    have h12 : i + (12 - i) = 12 := by omega
    rw [h12]
  rw [h1, Nat.mul_assoc, Nat.mul_div_cancel_left _ (Nat.two_pow_pos i)]
  have h2 : 2 ^ (12 - i) * k = 2 * (2 ^ (11 - i) * k) := by
    have h11 : 12 - i = (11 - i) + 1 := by omega
    rw [h11, Nat.pow_succ]
    ring
  rw [h2, Nat.mul_mod_right]
  decide

/-- Extracting the frame field of a page-aligned 52-bit frame address with
low flag bits OR-ed in returns exactly the frame address. -/
theorem address_lor_small {f : Nat} (hal : f % 4096 = 0) (hlt : f < 2 ^ 52)
    {b : Nat} (hb : b < 4096) : Entry.address (f ||| b) = f := by
  apply Nat.eq_of_testBit_eq
  intro i
  rw [Entry.address, Nat.testBit_land, Nat.testBit_lor, testBit_ADDR_MASK]
  by_cases h12 : i < 12
  · simp [h12, testBit_eq_false_of_align hal h12]
  · by_cases h52 : i < 52
    · have hble : b < 2 ^ i := by
        calc b < 4096 := hb
        _ = 2 ^ 12 := by norm_num
        _ ≤ 2 ^ i := Nat.pow_le_pow_right (by omega) (by omega)
      simp [h12, h52, Nat.testBit_lt_two_pow hble]
    · have hfle : f < 2 ^ i := by
        calc f < 2 ^ 52 := hlt
        _ ≤ 2 ^ i := Nat.pow_le_pow_right (by omega) (by omega)
      simp [h12, h52, Nat.testBit_lt_two_pow hfle]

/-- Setting the address field of a zero word yields the bare frame address. -/
theorem set_address_zero (f : Nat) : Entry.set_address 0 f = f := by
  rw [Entry.set_address, Nat.zero_and, Nat.zero_or]

/-- The three flag writes of a fresh link collapse to OR-ing 7. -/
theorem lor_lor_small (f : Nat) : ((f ||| 1) ||| 2) ||| 4 = f ||| 7 := by
  rw [Nat.or_assoc, Nat.or_assoc]
  congr 1

/-- A freshly linked word has Present, Writable and User set. -/
theorem bit_lor7_PWU (x : Nat) :
    Entry.bit (x ||| 7) 0 = true ∧ Entry.bit (x ||| 7) 1 = true ∧
      Entry.bit (x ||| 7) 2 = true := by
  have h0 : Nat.testBit 7 0 = true := by decide
  have h1 : Nat.testBit 7 1 = true := by decide
  have h2 : Nat.testBit 7 2 = true := by decide
  refine ⟨?_, ?_, ?_⟩ <;> rw [bit_eq_testBit, Nat.testBit_lor] <;>
    simp [h0, h1, h2]

/-- A freshly linked word of a page-aligned frame has Huge clear. -/
theorem bit_lor7_huge {f : Nat} (hal : f % 4096 = 0) :
    Entry.bit (f ||| 7) 7 = false := by
  rw [bit_eq_testBit, Nat.testBit_lor, testBit_eq_false_of_align hal (by omega)]
  decide

/-- A zero word has every bit clear. -/
theorem bit_zero (b : Nat) : Entry.bit 0 b = false := by
  rw [Entry.bit, Nat.zero_and]; rfl

/-- The canonical mask constant. -/
theorem notU64_canon : notU64 0xffff000000000000 = 2 ^ 48 - 1 := by decide

/-- Masking the sign-extension bits is reduction modulo 2^48. -/
theorem maskVA_eq_mod (v : Nat) : maskVA v = v % 2 ^ 48 := by
  rw [maskVA, notU64_canon, Nat.and_pow_two_sub_one_eq_mod]

/-- The level-4 index of a masked address is in bounds. -/
theorem pt4_idx_lt (v : Nat) : pt4_idx (maskVA v) < 512 := by
  rw [pt4_idx, maskVA_eq_mod]
  have h3 : PT3_EXTENT = 549755813888 := by rfl
  rw [h3]
  have h : v % 2 ^ 48 < 2 ^ 48 := Nat.mod_lt _ (by norm_num)
  have h48 : (2 : Nat) ^ 48 = 281474976710656 := by norm_num
  rw [h48] at h
  exact Nat.div_lt_of_lt_mul (by omega)

/-- The level-3 index of any address is in bounds. -/
theorem pt3_idx_lt (v : Nat) : pt3_idx v < 512 := by
  rw [pt3_idx]
  have h2 : PT2_EXTENT = 1073741824 := by rfl
  have h3 : PT3_EXTENT = 549755813888 := by rfl
  rw [h2, h3]
  have h : v % 549755813888 < 549755813888 := Nat.mod_lt _ (by norm_num)
  exact Nat.div_lt_of_lt_mul (by omega)

/-- The level-2 index of any address is in bounds. -/
theorem pt2_idx_lt (v : Nat) : pt2_idx v < 512 := by
  rw [pt2_idx]
  have h2 : PT1_EXTENT = 2097152 := by rfl
  have h3 : PT2_EXTENT = 1073741824 := by rfl
  rw [h2, h3]
  have h : v % 1073741824 < 1073741824 := Nat.mod_lt _ (by norm_num)
  exact Nat.div_lt_of_lt_mul (by omega)

/-- The level-1 index of any address is in bounds. -/
theorem pt1_idx_lt (v : Nat) : pt1_idx v < 512 := by
  rw [pt1_idx]
  have h2 : PAGE_SIZE = 4096 := by rfl
  have h3 : PT1_EXTENT = 2097152 := by rfl
  rw [h2, h3]
  have h : v % 2097152 < 2097152 := Nat.mod_lt _ (by norm_num)
  exact Nat.div_lt_of_lt_mul (by omega)

/-- Allocation-call counting distributes over trace concatenation. -/
theorem allocCalls_append (t u : List Event) :
    allocCalls (t ++ u) = allocCalls t + allocCalls u := by
  rw [allocCalls, allocCalls, allocCalls, List.filter_append, List.length_append]

/-- Translation-capability events contribute no allocation calls. -/
theorem allocCalls_trCall (p v : Nat) : allocCalls [Event.trCall p v] = 0 := by
  rfl

/-- Behaviour of `ensure_subtable` on a zero (absent) entry when the
allocation capability supplies a valid fresh frame: one allocation, one
translation, the new table is cleared, and the parent slot receives the
linked word `f ||| 7` through four volatile writes. -/
theorem ensure_create (alloc : Nat → Except MErr Nat) (tr : Nat → Nat)
    (s : WalkSt) (tva idx f : Nat)
    (hmem : s.mem tva idx = 0)
    (hal : alloc s.allocIdx = .ok f)
    (hfa : f % 4096 = 0) (hflt : f < 2 ^ 52)
    (hne : tr f ≠ tva) :
    ensure_subtable alloc tr s tva idx =
      some (⟨mem1After s.mem tva idx f (tr f), s.allocIdx + 1,
             s.trace ++ createdSeg tr tva idx f⟩, .ok ()) := by
  have hne2 : tva ≠ tr f := fun h => hne h.symm
  have hpre : Entry.setAddressPre f := ⟨hfa, lt_of_lt_of_le hflt (by norm_num)⟩
  have e12 : ∀ x : Nat, (x ||| 1) ||| 2 = x ||| 3 := fun x => by
    rw [Nat.or_assoc]; congr 1
  have e124 : ∀ x : Nat, (x ||| 3) ||| 4 = x ||| 7 := fun x => by
    rw [Nat.or_assoc]; congr 1
  have es1 : (1 : Nat) <<< 1 = 2 := by decide
  have es2 : (1 : Nat) <<< 2 = 4 := by decide
  simp only [ensure_subtable, hmem, bit_zero, Bool.not_false, if_true, hal,
    if_pos hpre, clearMem, writeMem, hne2, if_neg, BitPresent, BitWritable,
    BitUser, Entry.set_bit, Nat.shiftLeft_zero, es1, es2, set_address_zero,
    and_self, if_true, ite_false, if_false, eq_self_iff_true,
    and_true, true_and, false_and, and_false, ite_true]
  simp only [if_neg hne2, hmem, set_address_zero, e12, e124]
  have hmemeq :
      writeMem (writeMem (writeMem (writeMem (clearMem s.mem (tr f)) tva idx f)
        tva idx (f ||| 1)) tva idx (f ||| 3)) tva idx (f ||| 7) =
        mem1After s.mem tva idx f (tr f) := by
    funext x j
    by_cases h1 : x = tva ∧ j = idx
    · simp [writeMem, mem1After, h1]
    · by_cases h2 : x = tr f <;>
        simp [writeMem, clearMem, mem1After, h1, h2, hne]
  have htr :
      s.trace ++ [Event.allocCall (Except.ok f)] ++ [Event.trCall f (tr f)] ++
          [Event.clearTable (tr f)] ++ [Event.writeEntry tva idx f] ++
          [Event.writeEntry tva idx (f ||| 1)] ++
          [Event.writeEntry tva idx (f ||| 3)] ++
          [Event.writeEntry tva idx (f ||| 7)] =
        s.trace ++ createdSeg tr tva idx f := by
    simp [createdSeg]
  rw [hmemeq, htr]

/-- Behaviour of `ensure_subtable` on a present, non-huge entry: nothing
happens. -/
theorem ensure_skip (alloc : Nat → Except MErr Nat) (tr : Nat → Nat)
    (s : WalkSt) (tva idx : Nat)
    (h0 : Entry.bit (s.mem tva idx) BitPresent = true)
    (h7 : Entry.bit (s.mem tva idx) BitHuge = false) :
    ensure_subtable alloc tr s tva idx = some (s, .ok ()) := by
  simp [ensure_subtable, h0, h7]

/-- Behaviour of `ensure_subtable` on a present huge entry: `Err(Overlap)`
with no state change. -/
theorem ensure_huge (alloc : Nat → Except MErr Nat) (tr : Nat → Nat)
    (s : WalkSt) (tva idx : Nat)
    (h0 : Entry.bit (s.mem tva idx) BitPresent = true)
    (h7 : Entry.bit (s.mem tva idx) BitHuge = true) :
    ensure_subtable alloc tr s tva idx = some (s, .error .Overlap) := by
  simp [ensure_subtable, h0, h7]

/-- Behaviour of `ensure_subtable` on an absent entry when the allocation
capability fails: the error is returned verbatim and only the call counter
and trace advance. -/
theorem ensure_fail (alloc : Nat → Except MErr Nat) (tr : Nat → Nat)
    (s : WalkSt) (tva idx : Nat) (er : MErr)
    (h0 : Entry.bit (s.mem tva idx) BitPresent = false)
    (hal : alloc s.allocIdx = .error er) :
    ensure_subtable alloc tr s tva idx =
      some (⟨s.mem, s.allocIdx + 1, s.trace ++ [.allocCall (.error er)]⟩,
            .error er) := by
  simp [ensure_subtable, h0, hal]

/-- `descend_entry` through a zero (absent) entry with a valid fresh frame:
the sub-table is created and its virtual base address `tr f` returned. -/
theorem descend_create (alloc : Nat → Except MErr Nat) (tr : Nat → Nat)
    (s : WalkSt) (tva idx f : Nat)
    (hmem : s.mem tva idx = 0)
    (hal : alloc s.allocIdx = .ok f)
    (hfa : f % 4096 = 0) (hflt : f < 2 ^ 52)
    (hne : tr f ≠ tva) :
    descend_entry alloc tr s tva idx =
      some (⟨mem1After s.mem tva idx f (tr f), s.allocIdx + 1,
             s.trace ++ (createdSeg tr tva idx f ++ [.trCall f (tr f)])⟩,
            .ok (tr f)) := by
  rw [descend_entry, ensure_create alloc tr s tva idx f hmem hal hfa hflt hne]
  have hread : mem1After s.mem tva idx f (tr f) tva idx = f ||| 7 := by
    simp [mem1After]
  simp only [hread]
  rw [address_lor_small hfa hflt (by norm_num)]
  simp [List.append_assoc]

/-- `descend_entry` through a present, non-huge entry: no mutation, one
translation-capability call, returns the translated stored frame address. -/
theorem descend_skip (alloc : Nat → Except MErr Nat) (tr : Nat → Nat)
    (s : WalkSt) (tva idx : Nat)
    (h0 : Entry.bit (s.mem tva idx) BitPresent = true)
    (h7 : Entry.bit (s.mem tva idx) BitHuge = false) :
    descend_entry alloc tr s tva idx =
      some (⟨s.mem, s.allocIdx,
             s.trace ++ [.trCall (Entry.address (s.mem tva idx))
                                 (tr (Entry.address (s.mem tva idx)))]⟩,
            .ok (tr (Entry.address (s.mem tva idx)))) := by
  rw [descend_entry, ensure_skip alloc tr s tva idx h0 h7]

/-- `descend_entry` through a present huge entry: `Err(Overlap)`, no state
change. -/
theorem descend_huge (alloc : Nat → Except MErr Nat) (tr : Nat → Nat)
    (s : WalkSt) (tva idx : Nat)
    (h0 : Entry.bit (s.mem tva idx) BitPresent = true)
    (h7 : Entry.bit (s.mem tva idx) BitHuge = true) :
    descend_entry alloc tr s tva idx = some (s, .error .Overlap) := by
  rw [descend_entry, ensure_huge alloc tr s tva idx h0 h7]

/-- `descend_entry` through an absent entry when allocation fails: the error
is propagated verbatim. -/
theorem descend_fail (alloc : Nat → Except MErr Nat) (tr : Nat → Nat)
    (s : WalkSt) (tva idx : Nat) (er : MErr)
    (h0 : Entry.bit (s.mem tva idx) BitPresent = false)
    (hal : alloc s.allocIdx = .error er) :
    descend_entry alloc tr s tva idx =
      some (⟨s.mem, s.allocIdx + 1, s.trace ++ [.allocCall (.error er)]⟩,
            .error er) := by
  rw [descend_entry, ensure_fail alloc tr s tva idx er h0 hal]

/-- A level-4 request aligned to `PT3_EXTENT` returns the root-table slot at
index `maskVA va / PT3_EXTENT` with no state change whatsoever: no
capability call, no trace event, no memory write, regardless of the current
tree contents. -/
theorem entry_level4 (alloc : Nat → Except MErr Nat) (tr : Nat → Nat)
    (pt4va : Nat) (s : WalkSt) (va : Nat)
    (hva : va % PT3_EXTENT = 0) :
    entry alloc tr pt4va s va 4 =
      some (s, .ok (pt4va, pt4_idx (maskVA va))) := by
  have h4 := pt4_idx_lt va
  simp [entry, hva, h4]

/-- A level-3 walk from the all-zero tree: exactly one creation. -/
theorem walkZero3 (alloc : Nat → Except MErr Nat) (tr : Nat → Nat)
    (pt4va va f0 : Nat)
    (hva : va % PT2_EXTENT = 0)
    (hal0 : alloc 0 = .ok f0)
    (hf0a : f0 % 4096 = 0) (hf0lt : f0 < 2 ^ 52)
    (hne0 : tr f0 ≠ pt4va) :
    entry alloc tr pt4va zeroSt va 3 =
      some (⟨mem1After zeroSt.mem pt4va (pt4_idx (maskVA va)) f0 (tr f0), 1,
             createdSeg tr pt4va (pt4_idx (maskVA va)) f0 ++
               [.trCall f0 (tr f0)]⟩,
            .ok (tr f0, pt3_idx (maskVA va))) := by
  have h4 := pt4_idx_lt va
  have h3 := pt3_idx_lt (maskVA va)
  have hz : zeroSt.trace = [] := rfl
  have hz2 : zeroSt.allocIdx = 0 := rfl
  have hd1 := descend_create alloc tr zeroSt pt4va (pt4_idx (maskVA va)) f0
    rfl hal0 hf0a hf0lt hne0
  simp [entry, hva, h4, h3, hd1, hz, hz2]

/-- A level-2 walk from the all-zero tree: exactly two creations. -/
theorem walkZero2 (alloc : Nat → Except MErr Nat) (tr : Nat → Nat)
    (pt4va va f0 f1 : Nat)
    (hva : va % PT1_EXTENT = 0)
    (hal0 : alloc 0 = .ok f0) (hal1 : alloc 1 = .ok f1)
    (hf0a : f0 % 4096 = 0) (hf0lt : f0 < 2 ^ 52)
    (hf1a : f1 % 4096 = 0) (hf1lt : f1 < 2 ^ 52)
    (hne0 : tr f0 ≠ pt4va) (hne10 : tr f1 ≠ tr f0) :
    entry alloc tr pt4va zeroSt va 2 =
      some (⟨mem1After
               (mem1After zeroSt.mem pt4va (pt4_idx (maskVA va)) f0 (tr f0))
               (tr f0) (pt3_idx (maskVA va)) f1 (tr f1), 2,
             createdSeg tr pt4va (pt4_idx (maskVA va)) f0 ++
               ([Event.trCall f0 (tr f0)] ++
                 (createdSeg tr (tr f0) (pt3_idx (maskVA va)) f1 ++
                   [Event.trCall f1 (tr f1)]))⟩,
            .ok (tr f1, pt2_idx (maskVA va))) := by
  have h4 := pt4_idx_lt va
  have h3 := pt3_idx_lt (maskVA va)
  have h2 := pt2_idx_lt (maskVA va)
  have hz : zeroSt.trace = [] := rfl
  have hz2 : zeroSt.allocIdx = 0 := rfl
  have hd1 := descend_create alloc tr zeroSt pt4va (pt4_idx (maskVA va)) f0
    rfl hal0 hf0a hf0lt hne0
  have hmem2 : (⟨mem1After zeroSt.mem pt4va (pt4_idx (maskVA va)) f0 (tr f0), 1,
      createdSeg tr pt4va (pt4_idx (maskVA va)) f0 ++
        [Event.trCall f0 (tr f0)]⟩ : WalkSt).mem (tr f0) (pt3_idx (maskVA va))
      = 0 := by
    simp [mem1After, hne0, zeroSt]
  have hd2 := descend_create alloc tr
    ⟨mem1After zeroSt.mem pt4va (pt4_idx (maskVA va)) f0 (tr f0), 1,
     createdSeg tr pt4va (pt4_idx (maskVA va)) f0 ++
       [Event.trCall f0 (tr f0)]⟩
    (tr f0) (pt3_idx (maskVA va)) f1 hmem2 hal1 hf1a hf1lt hne10
  simp at hd2
  simp [entry, hva, h4, h3, h2, hd1, hd2, hz, hz2]

/-- A level-1 walk from the all-zero tree: exactly three creations. -/
theorem walkZero1 (alloc : Nat → Except MErr Nat) (tr : Nat → Nat)
    (pt4va va f0 f1 f2 : Nat)
    (hva : va % PAGE_SIZE = 0)
    (hal0 : alloc 0 = .ok f0) (hal1 : alloc 1 = .ok f1)
    (hal2 : alloc 2 = .ok f2)
    (hf0a : f0 % 4096 = 0) (hf0lt : f0 < 2 ^ 52)
    (hf1a : f1 % 4096 = 0) (hf1lt : f1 < 2 ^ 52)
    (hf2a : f2 % 4096 = 0) (hf2lt : f2 < 2 ^ 52)
    (hne0 : tr f0 ≠ pt4va) (hne10 : tr f1 ≠ tr f0) (hne21 : tr f2 ≠ tr f1) :
    entry alloc tr pt4va zeroSt va 1 =
      some (⟨mem1After
               (mem1After
                 (mem1After zeroSt.mem pt4va (pt4_idx (maskVA va)) f0 (tr f0))
                 (tr f0) (pt3_idx (maskVA va)) f1 (tr f1))
               (tr f1) (pt2_idx (maskVA va)) f2 (tr f2), 3,
             createdSeg tr pt4va (pt4_idx (maskVA va)) f0 ++
               ([Event.trCall f0 (tr f0)] ++
                 (createdSeg tr (tr f0) (pt3_idx (maskVA va)) f1 ++
                   ([Event.trCall f1 (tr f1)] ++
                     (createdSeg tr (tr f1) (pt2_idx (maskVA va)) f2 ++
                       [Event.trCall f2 (tr f2)]))))⟩,
            .ok (tr f2, pt1_idx (maskVA va))) := by
  have h4 := pt4_idx_lt va
  have h3 := pt3_idx_lt (maskVA va)
  have h2 := pt2_idx_lt (maskVA va)
  have h1 := pt1_idx_lt (maskVA va)
  have hz : zeroSt.trace = [] := rfl
  have hz2 : zeroSt.allocIdx = 0 := rfl
  have hd1 := descend_create alloc tr zeroSt pt4va (pt4_idx (maskVA va)) f0
    rfl hal0 hf0a hf0lt hne0
  have hmem2 : (⟨mem1After zeroSt.mem pt4va (pt4_idx (maskVA va)) f0 (tr f0), 1,
      createdSeg tr pt4va (pt4_idx (maskVA va)) f0 ++
        [Event.trCall f0 (tr f0)]⟩ : WalkSt).mem (tr f0) (pt3_idx (maskVA va))
      = 0 := by
    simp [mem1After, hne0, zeroSt]
  have hd2 := descend_create alloc tr
    ⟨mem1After zeroSt.mem pt4va (pt4_idx (maskVA va)) f0 (tr f0), 1,
     createdSeg tr pt4va (pt4_idx (maskVA va)) f0 ++
       [Event.trCall f0 (tr f0)]⟩
    (tr f0) (pt3_idx (maskVA va)) f1 hmem2 hal1 hf1a hf1lt hne10
  have hmem3 : (⟨mem1After
      (mem1After zeroSt.mem pt4va (pt4_idx (maskVA va)) f0 (tr f0))
      (tr f0) (pt3_idx (maskVA va)) f1 (tr f1), 2,
      createdSeg tr pt4va (pt4_idx (maskVA va)) f0 ++
        ([Event.trCall f0 (tr f0)] ++
          (createdSeg tr (tr f0) (pt3_idx (maskVA va)) f1 ++
            [Event.trCall f1 (tr f1)]))⟩ : WalkSt).mem
      (tr f1) (pt2_idx (maskVA va)) = 0 := by
    simp [mem1After, hne10, zeroSt]
  have hd3 := descend_create alloc tr
    ⟨mem1After
      (mem1After zeroSt.mem pt4va (pt4_idx (maskVA va)) f0 (tr f0))
      (tr f0) (pt3_idx (maskVA va)) f1 (tr f1), 2,
     createdSeg tr pt4va (pt4_idx (maskVA va)) f0 ++
       ([Event.trCall f0 (tr f0)] ++
         (createdSeg tr (tr f0) (pt3_idx (maskVA va)) f1 ++
           [Event.trCall f1 (tr f1)]))⟩
    (tr f1) (pt2_idx (maskVA va)) f2 hmem3 hal2 hf2a hf2lt hne21
  simp at hd2 hd3
  simp [entry, hva, h4, h3, h2, h1, hd1, hd2, hd3, hz, hz2]

/-- A level-3 walk whose level-4 entry is already present and not huge: no
allocation, no write, one translation-capability call. -/
theorem presentPath3 (alloc : Nat → Except MErr Nat) (tr : Nat → Nat)
    (pt4va : Nat) (s : WalkSt) (va t3 : Nat)
    (hva : va % PT2_EXTENT = 0)
    (h40 : Entry.bit (s.mem pt4va (pt4_idx (maskVA va))) BitPresent = true)
    (h47 : Entry.bit (s.mem pt4va (pt4_idx (maskVA va))) BitHuge = false)
    (ht3 : tr (Entry.address (s.mem pt4va (pt4_idx (maskVA va)))) = t3) :
    entry alloc tr pt4va s va 3 =
      some (⟨s.mem, s.allocIdx,
             s.trace ++
               [Event.trCall (Entry.address (s.mem pt4va (pt4_idx (maskVA va)))) t3]⟩,
            .ok (t3, pt3_idx (maskVA va))) := by
  have h4 := pt4_idx_lt va
  have h3 := pt3_idx_lt (maskVA va)
  have hd1 := descend_skip alloc tr s pt4va (pt4_idx (maskVA va)) h40 h47
  rw [ht3] at hd1
  simp [entry, hva, h4, h3, hd1]

/-- A level-2 walk whose level-4 and level-3 entries are already present and
not huge: no allocation, no write, two translation-capability calls. -/
theorem presentPath2 (alloc : Nat → Except MErr Nat) (tr : Nat → Nat)
    (pt4va : Nat) (s : WalkSt) (va t3 t2 : Nat)
    (hva : va % PT1_EXTENT = 0)
    (h40 : Entry.bit (s.mem pt4va (pt4_idx (maskVA va))) BitPresent = true)
    (h47 : Entry.bit (s.mem pt4va (pt4_idx (maskVA va))) BitHuge = false)
    (ht3 : tr (Entry.address (s.mem pt4va (pt4_idx (maskVA va)))) = t3)
    (h30 : Entry.bit (s.mem t3 (pt3_idx (maskVA va))) BitPresent = true)
    (h37 : Entry.bit (s.mem t3 (pt3_idx (maskVA va))) BitHuge = false)
    (ht2 : tr (Entry.address (s.mem t3 (pt3_idx (maskVA va)))) = t2) :
    entry alloc tr pt4va s va 2 =
      some (⟨s.mem, s.allocIdx,
             s.trace ++
               [Event.trCall (Entry.address (s.mem pt4va (pt4_idx (maskVA va)))) t3,
                Event.trCall (Entry.address (s.mem t3 (pt3_idx (maskVA va)))) t2]⟩,
            .ok (t2, pt2_idx (maskVA va))) := by
  have h4 := pt4_idx_lt va
  have h3 := pt3_idx_lt (maskVA va)
  have h2 := pt2_idx_lt (maskVA va)
  have hd1 := descend_skip alloc tr s pt4va (pt4_idx (maskVA va)) h40 h47
  rw [ht3] at hd1
  have hd2 := descend_skip alloc tr
    ⟨s.mem, s.allocIdx,
     s.trace ++ [Event.trCall (Entry.address (s.mem pt4va (pt4_idx (maskVA va)))) t3]⟩
    t3 (pt3_idx (maskVA va)) h30 h37
  rw [ht2] at hd2
  simp at hd2
  simp [entry, hva, h4, h3, h2, hd1, hd2]

/-- A level-1 walk whose level-4, level-3 and level-2 entries are already
present and not huge: no allocation, no write, three translation-capability
calls, and the slot returned is determined by the stored frame addresses. -/
theorem presentPath1 (alloc : Nat → Except MErr Nat) (tr : Nat → Nat)
    (pt4va : Nat) (s : WalkSt) (va t3 t2 : Nat)
    (hva : va % PAGE_SIZE = 0)
    (h40 : Entry.bit (s.mem pt4va (pt4_idx (maskVA va))) BitPresent = true)
    (h47 : Entry.bit (s.mem pt4va (pt4_idx (maskVA va))) BitHuge = false)
    (ht3 : tr (Entry.address (s.mem pt4va (pt4_idx (maskVA va)))) = t3)
    (h30 : Entry.bit (s.mem t3 (pt3_idx (maskVA va))) BitPresent = true)
    (h37 : Entry.bit (s.mem t3 (pt3_idx (maskVA va))) BitHuge = false)
    (ht2 : tr (Entry.address (s.mem t3 (pt3_idx (maskVA va)))) = t2)
    (h20 : Entry.bit (s.mem t2 (pt2_idx (maskVA va))) BitPresent = true)
    (h27 : Entry.bit (s.mem t2 (pt2_idx (maskVA va))) BitHuge = false) :
    entry alloc tr pt4va s va 1 =
      some (⟨s.mem, s.allocIdx,
             s.trace ++
               [Event.trCall (Entry.address (s.mem pt4va (pt4_idx (maskVA va)))) t3,
                Event.trCall (Entry.address (s.mem t3 (pt3_idx (maskVA va)))) t2,
                Event.trCall (Entry.address (s.mem t2 (pt2_idx (maskVA va))))
                  (tr (Entry.address (s.mem t2 (pt2_idx (maskVA va)))))]⟩,
            .ok (tr (Entry.address (s.mem t2 (pt2_idx (maskVA va)))),
                 pt1_idx (maskVA va))) := by
  have h4 := pt4_idx_lt va
  have h3 := pt3_idx_lt (maskVA va)
  have h2 := pt2_idx_lt (maskVA va)
  have h1 := pt1_idx_lt (maskVA va)
  have hd1 := descend_skip alloc tr s pt4va (pt4_idx (maskVA va)) h40 h47
  rw [ht3] at hd1
  have hd2 := descend_skip alloc tr
    ⟨s.mem, s.allocIdx,
     s.trace ++ [Event.trCall (Entry.address (s.mem pt4va (pt4_idx (maskVA va)))) t3]⟩
    t3 (pt3_idx (maskVA va)) h30 h37
  rw [ht2] at hd2
  have hd3 := descend_skip alloc tr
    ⟨s.mem, s.allocIdx,
     s.trace ++ [Event.trCall (Entry.address (s.mem pt4va (pt4_idx (maskVA va)))) t3,
                 Event.trCall (Entry.address (s.mem t3 (pt3_idx (maskVA va)))) t2]⟩
    t2 (pt2_idx (maskVA va)) h20 h27
  simp at hd2 hd3
  simp [entry, hva, h4, h3, h2, h1, hd1, hd2, hd3]

/-- Extracting the frame field of a bare page-aligned 52-bit frame address
is the identity. -/
theorem address_self {f : Nat} (hal : f % 4096 = 0) (hlt : f < 2 ^ 52) :
    Entry.address f = f := by
  have h := address_lor_small hal hlt (show (0 : Nat) < 4096 by norm_num)
  rwa [Nat.or_zero] at h

/-- Two linked words with distinct frames have distinct address fields. -/
theorem frame_addr_eq {fa fb b : Nat} (ha : fa % 4096 = 0) (hlt : fa < 2 ^ 52)
    (hb : b < 4096) (h : Entry.address (fa ||| b) = fb) : fa = fb := by
  rwa [address_lor_small ha hlt hb] at h

/-- C9: for every virtual address aligned to the 512 GiB level-4 extent,
`RecursiveMapper::entry(va, 4)` always returns `Ok` with the level-4 slot at
index `maskVA va / PT3_EXTENT` of the root table, with the walk state
returned completely unchanged: no allocation-capability call, no
translation-capability call, no entry mutation — regardless of the tree
contents, in particular even when the selected level-4 entry is Present with
Huge set. -/
theorem C9_level4_total (alloc : Nat → Except MErr Nat) (tr : Nat → Nat)
    (pt4va : Nat) (s : WalkSt) (va : Nat) (hva : va % PT3_EXTENT = 0) :
    entry alloc tr pt4va s va 4 = some (s, .ok (pt4va, pt4_idx (maskVA va))) :=
  entry_level4 alloc tr pt4va s va hva

/-- Witness for C9 at a concrete input: virtual address `PT3_EXTENT` itself,
a failing allocator (which is never consulted), and a tree whose selected
level-4 entry is Present and Huge. -/
theorem C9_level4_total_witness :
    entry (fun _ => .error .NoMemory) (fun p => p) 0
        ⟨fun _ _ => 0x81, 0, []⟩ 0x8000000000 4 =
      some (⟨fun _ _ => 0x81, 0, []⟩, .ok (0, 1)) := by
  rw [C9_level4_total (fun _ => .error .NoMemory) (fun p => p) 0
      ⟨fun _ _ => 0x81, 0, []⟩ 0x8000000000 (by decide)]
  rfl

/-- C10: for every 64-bit virtual address, after the top 16 bits are masked
off every table index the walker computes (`maskVA v / PT3_EXTENT` at level
4 and `(maskVA v % extent) / next_extent` at levels 3, 2, 1) is strictly
below 512, so every `PageTable` indexing operation performed during a walk
is within the 512-slot bounds. -/
theorem C10_indices_in_bounds (v : Nat) :
    pt4_idx (maskVA v) < 512 ∧ pt3_idx (maskVA v) < 512 ∧
      pt2_idx (maskVA v) < 512 ∧ pt1_idx (maskVA v) < 512 :=
  ⟨pt4_idx_lt v, pt3_idx_lt _, pt2_idx_lt _, pt1_idx_lt _⟩

/-- C8: two virtual addresses that agree after canonical masking (in
particular any two addresses differing only in their top 16 bits) make
`RecursiveMapper::entry` behave identically at every level: the same result
slot, the same errors, the same state — the top bits never influence which
tables are visited or which slot is returned. -/
theorem C8_canonical_mask (alloc : Nat → Except MErr Nat) (tr : Nat → Nat)
    (pt4va : Nat) (s : WalkSt) (va vb level : Nat)
    (h : maskVA va = maskVA vb) :
    entry alloc tr pt4va s va level = entry alloc tr pt4va s vb level := by
  have hmod : ∀ k : Nat, k ∣ 2 ^ 48 → va % k = vb % k := by
    intro k hk
    have h1 : va % 2 ^ 48 = vb % 2 ^ 48 := by
      rw [← maskVA_eq_mod, ← maskVA_eq_mod, h]
    calc va % k = va % 2 ^ 48 % k := (Nat.mod_mod_of_dvd va hk).symm
    _ = vb % 2 ^ 48 % k := by rw [h1]
    _ = vb % k := Nat.mod_mod_of_dvd vb hk
  have h12 : va % PAGE_SIZE = vb % PAGE_SIZE := hmod PAGE_SIZE (by decide)
  have h21 : va % PT1_EXTENT = vb % PT1_EXTENT := hmod PT1_EXTENT (by decide)
  have h30 : va % PT2_EXTENT = vb % PT2_EXTENT := hmod PT2_EXTENT (by decide)
  have h39 : va % PT3_EXTENT = vb % PT3_EXTENT := hmod PT3_EXTENT (by decide)
  simp only [entry]
  rw [h12, h21, h30, h39, h]

/-- Witness for C8 at concrete inputs: `0x0000_8000_0000_0000` and
`0xffff_8000_0000_0000` differ exactly in the top 16 bits and resolve
identically. -/
theorem C8_canonical_mask_witness :
    entry (fun n => .ok (0x1000 * (n + 1))) (fun p => p) 0 zeroSt
        0x800000000000 1 =
      entry (fun n => .ok (0x1000 * (n + 1))) (fun p => p) 0 zeroSt
        0xffff800000000000 1 :=
  C8_canonical_mask (fun n => .ok (0x1000 * (n + 1))) (fun p => p) 0 zeroSt
    0x800000000000 0xffff800000000000 1 (by decide)

/-- C3 (divergence demonstration): the first precondition check of the code is
`assert!(!(level < 1 && level > 4))`, whose condition is vacuously true, so
an out-of-range level such as 0 is NOT halted: the call proceeds to the full
table walk, allocates three tables and returns `Ok` with the deepest slot —
here evaluated on the all-zero tree with a monotone allocator starting at
frame `0x1000` and identity translation. -/
theorem C3_level0_not_halted :
    Option.map (fun p => p.2)
        (entry (fun n => .ok (0x1000 * (n + 1))) (fun p => p) 0 zeroSt 0 0) =
      some (.ok (0x3000, 0)) := by
  rfl

/-- C4 (counterexample): the address `0x0010_0000_0000_0000 = 2^52` is
page-aligned and below the assertion threshold of the code,
`0xfff0_0000_0000_0000`, so `set_address` accepts it, yet it lies outside
the bits 12-51 frame field, and `address()` after `set_address` returns 0,
not the stored address — the claimed round-trip fails. -/
theorem C4_roundtrip_counterexample :
    Entry.setAddressPre 0x10000000000000 ∧
      Entry.address (Entry.set_address 0 0x10000000000000) ≠
        0x10000000000000 := by
  decide

/-- C4 (amended): the round-trip `address (set_address e a) = a` holds for
every page-aligned `a` that fits the bits 12-51 frame field, i.e.
`a < 2^52` (not for every `a` below the assertion threshold
`0xfff0_0000_0000_0000`); and a misaligned address, or one at or above the
threshold, is rejected by the `set_address` assertions (a caller-contract
violation, not an error return). -/
theorem C4_roundtrip_amended :
    (∀ e a : Nat, a % 4096 = 0 → a < 2 ^ 52 →
        Entry.address (Entry.set_address e a) = a) ∧
      (∀ a : Nat, (¬ a % 4096 = 0) ∨ 0xfff0000000000000 ≤ a →
        ¬ Entry.setAddressPre a) := by
  constructor
  · intro e a hal hlt
    apply Nat.eq_of_testBit_eq
    intro i
    rw [Entry.address, Entry.set_address, Nat.testBit_land, Nat.testBit_lor,
      Nat.testBit_land, testBit_notU64, testBit_ADDR_MASK]
    by_cases h12 : i < 12
    · simp [h12, testBit_eq_false_of_align hal h12]
    · by_cases h52 : i < 52
      · have h64 : i < 64 := by omega
        simp [h12, h52, h64]
      · have hfle : a < 2 ^ i :=
          lt_of_lt_of_le hlt (Nat.pow_le_pow_right (by omega) (by omega))
        simp [h12, h52, Nat.testBit_lt_two_pow hfle]
  · rintro a (h | h) ⟨h1, h2⟩
    · exact h h1
    · omega

/-- Witness for C4 (amended) at concrete inputs: the round-trip holds at the
in-range address `0x4242000` over a dirty word, and the misaligned address
`0x123` is rejected. -/
theorem C4_roundtrip_amended_witness :
    Entry.address (Entry.set_address 0x8f 0x4242000) = 0x4242000 ∧
      ¬ Entry.setAddressPre 0x123 :=
  ⟨C4_roundtrip_amended.1 0x8f 0x4242000 (by decide) (by decide),
   C4_roundtrip_amended.2 0x123 (Or.inl (by decide))⟩

/-- C5 (counterexample): for the accepted address `2^52` (page-aligned,
below the assertion threshold), `set_address` does not only change bits
12-51: it flips bit 52 of the word, so "every other bit unchanged" fails. -/
theorem C5_frame_field_counterexample :
    Entry.setAddressPre 0x10000000000000 ∧
      Nat.testBit (Entry.set_address 0 0x10000000000000) 52 ≠
        Nat.testBit 0 52 := by
  decide

/-- C5 (amended): for every 64-bit entry word `w` and every page-aligned
address `a` that fits the bits 12-51 frame field (`a < 2^52`, not merely
below the assertion threshold), `set_address` leaves every bit outside
12-51 unchanged — Present, Writable, User, Huge, Noexec, the avail field
and all the rest are preserved. -/
theorem C5_frame_field_amended (w a i : Nat) (hw : w < 2 ^ 64)
    (hal : a % 4096 = 0) (hlt : a < 2 ^ 52) (hi : i < 12 ∨ 51 < i) :
    Nat.testBit (Entry.set_address w a) i = Nat.testBit w i := by
  rw [Entry.set_address, Nat.testBit_lor, Nat.testBit_land, testBit_notU64,
    testBit_ADDR_MASK]
  rcases hi with hi | hi
  · have h64 : i < 64 := by omega
    have h52 : i < 52 := by omega
    simp [hi, h64, h52, testBit_eq_false_of_align hal hi]
  · have ha : a.testBit i = false :=
      Nat.testBit_lt_two_pow
        (lt_of_lt_of_le hlt (Nat.pow_le_pow_right (by omega) (by omega)))
    by_cases h64 : i < 64
    · simp [h64, ha, show ¬ i < 52 by omega, show ¬ i < 12 by omega]
    · have hww : w.testBit i = false :=
        Nat.testBit_lt_two_pow
          (lt_of_lt_of_le hw (Nat.pow_le_pow_right (by omega) (by omega)))
      simp [h64, ha, hww, show ¬ i < 52 by omega, show ¬ i < 12 by omega]

/-- Witness for C5 (amended) at a concrete input: storing `0x4242000` into a
word with Noexec (bit 63), Huge (bit 7) and Present (bit 0) set leaves bit
63 as it was. -/
theorem C5_frame_field_amended_witness :
    Nat.testBit (Entry.set_address 0x8000000000000081 0x4242000) 63 =
      Nat.testBit 0x8000000000000081 63 :=
  C5_frame_field_amended 0x8000000000000081 0x4242000 63 (by decide)
    (by decide) (by decide) (Or.inr (by decide))

/-- C2: when a level-1 request descends a path whose level-4 and level-3
entries are present intermediate tables but whose level-2 entry is Present
with Huge set (a large-page leaf where a table was expected),
`RecursiveMapper::entry` returns `Err(Overlap)`, invokes the allocation
capability zero further times, and performs no entry mutation at all from
the point the conflict is detected (here: no mutation anywhere — memory is
returned exactly as it was). -/
theorem C2_overlap_detection (alloc : Nat → Except MErr Nat) (tr : Nat → Nat)
    (pt4va : Nat) (s : WalkSt) (va t3 t2 : Nat)
    (hva : va % PAGE_SIZE = 0)
    (h40 : Entry.bit (s.mem pt4va (pt4_idx (maskVA va))) BitPresent = true)
    (h47 : Entry.bit (s.mem pt4va (pt4_idx (maskVA va))) BitHuge = false)
    (ht3 : tr (Entry.address (s.mem pt4va (pt4_idx (maskVA va)))) = t3)
    (h30 : Entry.bit (s.mem t3 (pt3_idx (maskVA va))) BitPresent = true)
    (h37 : Entry.bit (s.mem t3 (pt3_idx (maskVA va))) BitHuge = false)
    (ht2 : tr (Entry.address (s.mem t3 (pt3_idx (maskVA va)))) = t2)
    (h20 : Entry.bit (s.mem t2 (pt2_idx (maskVA va))) BitPresent = true)
    (h27 : Entry.bit (s.mem t2 (pt2_idx (maskVA va))) BitHuge = true) :
    ∃ s1 : WalkSt,
      entry alloc tr pt4va s va 1 = some (s1, .error .Overlap) ∧
        (∀ a i, s1.mem a i = s.mem a i) ∧
        allocCalls s1.trace = allocCalls s.trace := by
  have h4 := pt4_idx_lt va
  have h3p := pt3_idx_lt (maskVA va)
  have h2p := pt2_idx_lt (maskVA va)
  have hd1 := descend_skip alloc tr s pt4va (pt4_idx (maskVA va)) h40 h47
  rw [ht3] at hd1
  have hd2 := descend_skip alloc tr
    ⟨s.mem, s.allocIdx,
     s.trace ++ [Event.trCall (Entry.address (s.mem pt4va (pt4_idx (maskVA va)))) t3]⟩
    t3 (pt3_idx (maskVA va)) h30 h37
  rw [ht2] at hd2
  have hd3 := descend_huge alloc tr
    ⟨s.mem, s.allocIdx,
     s.trace ++ [Event.trCall (Entry.address (s.mem pt4va (pt4_idx (maskVA va)))) t3,
                 Event.trCall (Entry.address (s.mem t3 (pt3_idx (maskVA va)))) t2]⟩
    t2 (pt2_idx (maskVA va)) h20 h27
  refine ⟨⟨s.mem, s.allocIdx,
    s.trace ++ [Event.trCall (Entry.address (s.mem pt4va (pt4_idx (maskVA va)))) t3,
                Event.trCall (Entry.address (s.mem t3 (pt3_idx (maskVA va)))) t2]⟩,
    ?_, fun a i => rfl, ?_⟩
  · simp at hd2 hd3
    simp [entry, hva, h4, h3p, h2p, hd1, hd2, hd3]
  · rw [allocCalls_append]
    rfl

/-- Witness for C2 at a concrete tree: the root entry at index 0 links table
`0x2000`, whose entry 0 links table `0x3000`, whose entry 0 holds the word
`0x81` (Present and Huge); a level-1 request for address 0 fails with
Overlap, mutates nothing and allocates nothing. -/
theorem C2_overlap_detection_witness :
    ∃ s1 : Mmu.WalkSt,
      entry (fun _ => .ok 0x5000) (fun p => p) 0
          ⟨fun a i =>
             if a = 0 ∧ i = 0 then 0x2001
             else if a = 0x2000 ∧ i = 0 then 0x3001
             else if a = 0x3000 ∧ i = 0 then 0x81 else 0, 0, []⟩ 0 1 =
        some (s1, .error .Overlap) ∧
      (∀ a i, s1.mem a i =
        (fun a i =>
           if a = 0 ∧ i = 0 then 0x2001
           else if a = 0x2000 ∧ i = 0 then 0x3001
           else if a = 0x3000 ∧ i = 0 then 0x81 else 0 : Mem) a i) ∧
      allocCalls s1.trace =
        allocCalls (⟨fun a i =>
           if a = 0 ∧ i = 0 then 0x2001
           else if a = 0x2000 ∧ i = 0 then 0x3001
           else if a = 0x3000 ∧ i = 0 then 0x81 else 0, 0, []⟩ : WalkSt).trace :=
  C2_overlap_detection (fun _ => .ok 0x5000) (fun p => p) 0
    ⟨fun a i =>
       if a = 0 ∧ i = 0 then 0x2001
       else if a = 0x2000 ∧ i = 0 then 0x3001
       else if a = 0x3000 ∧ i = 0 then 0x81 else 0, 0, []⟩ 0 0x2000 0x3000
    (by decide) (by decide) (by decide) (by decide) (by decide) (by decide)
    (by decide) (by decide) (by decide)

/-- C6: if, during a level-1 walk from the all-zero tree, the allocation
capability succeeds for the first `k` calls and then returns
`Err(NoMemory)` (for any failure point `k` in the descent),
`RecursiveMapper::entry` returns `Err(NoMemory)` unchanged — exactly `k + 1`
allocation calls are made, so there is no retry and no wrapping — and every
intermediate table created and linked earlier in the same call remains
linked: its parent entry is still Present and still carries the created
frame address.  No rollback occurs. -/
theorem C6_nomemory_propagation (alloc : Nat → Except MErr Nat)
    (tr : Nat → Nat) (pt4va va : Nat) (fs : Nat → Nat) (k : Nat)
    (hk : k < 3)
    (hva : va % PAGE_SIZE = 0)
    (hok : ∀ j, j < k → alloc j = .ok (fs j))
    (hfail : alloc k = .error .NoMemory)
    (hf0a : fs 0 % 4096 = 0) (hf0lt : fs 0 < 2 ^ 52)
    (hf1a : fs 1 % 4096 = 0) (hf1lt : fs 1 < 2 ^ 52)
    (hne0 : tr (fs 0) ≠ pt4va) (hne10 : tr (fs 1) ≠ tr (fs 0))
    (hne1p : tr (fs 1) ≠ pt4va) :
    ∃ s1 : WalkSt,
      entry alloc tr pt4va zeroSt va 1 = some (s1, .error .NoMemory) ∧
        allocCalls s1.trace = k + 1 ∧
        (∀ j, j < k →
          Entry.bit (s1.mem (pathSlot tr pt4va va fs j).1
            (pathSlot tr pt4va va fs j).2) BitPresent = true ∧
          Entry.address (s1.mem (pathSlot tr pt4va va fs j).1
            (pathSlot tr pt4va va fs j).2) = fs j) := by
  have h4 := pt4_idx_lt va
  have h3 := pt3_idx_lt (maskVA va)
  have h2 := pt2_idx_lt (maskVA va)
  have hz : zeroSt.trace = [] := rfl
  have hz2 : zeroSt.allocIdx = 0 := rfl
  interval_cases k
  · -- failure at the very first allocation
    have hd := descend_fail alloc tr zeroSt pt4va (pt4_idx (maskVA va))
      .NoMemory (bit_zero BitPresent) hfail
    refine ⟨⟨zeroSt.mem, 1, [Event.allocCall (.error .NoMemory)]⟩, ?_, rfl, ?_⟩
    · simp [entry, hva, h4, hd, hz, hz2]
    · intro j hj; omega
  · -- failure at the second allocation: the level-3 table survives
    have hd1 := descend_create alloc tr zeroSt pt4va (pt4_idx (maskVA va))
      (fs 0) rfl (hok 0 (by omega)) hf0a hf0lt hne0
    have hb0 : (⟨mem1After zeroSt.mem pt4va (pt4_idx (maskVA va)) (fs 0)
        (tr (fs 0)), 1,
        createdSeg tr pt4va (pt4_idx (maskVA va)) (fs 0) ++
          [Event.trCall (fs 0) (tr (fs 0))]⟩ : WalkSt).mem
        (tr (fs 0)) (pt3_idx (maskVA va)) = 0 := by
      simp [mem1After, hne0, zeroSt]
    have hd2 := descend_fail alloc tr
      ⟨mem1After zeroSt.mem pt4va (pt4_idx (maskVA va)) (fs 0) (tr (fs 0)), 1,
       createdSeg tr pt4va (pt4_idx (maskVA va)) (fs 0) ++
         [Event.trCall (fs 0) (tr (fs 0))]⟩
      (tr (fs 0)) (pt3_idx (maskVA va)) .NoMemory
      (by rw [hb0]; rfl) hfail
    refine ⟨⟨mem1After zeroSt.mem pt4va (pt4_idx (maskVA va)) (fs 0)
        (tr (fs 0)), 2,
        createdSeg tr pt4va (pt4_idx (maskVA va)) (fs 0) ++
          [Event.trCall (fs 0) (tr (fs 0)),
           Event.allocCall (.error .NoMemory)]⟩, ?_, rfl, ?_⟩
    · simp at hd2
      simp [entry, hva, h4, h3, hd1, hd2, hz, hz2]
    · intro j hj
      interval_cases j
      have hm : mem1After zeroSt.mem pt4va (pt4_idx (maskVA va)) (fs 0)
          (tr (fs 0)) pt4va (pt4_idx (maskVA va)) = fs 0 ||| 7 := by
        simp [mem1After]
      simp only [pathSlot]
      rw [hm]
      exact ⟨(bit_lor7_PWU (fs 0)).1,
        address_lor_small hf0a hf0lt (by norm_num)⟩
  · -- failure at the third allocation: both earlier tables survive
    have hd1 := descend_create alloc tr zeroSt pt4va (pt4_idx (maskVA va))
      (fs 0) rfl (hok 0 (by omega)) hf0a hf0lt hne0
    have hb0 : (⟨mem1After zeroSt.mem pt4va (pt4_idx (maskVA va)) (fs 0)
        (tr (fs 0)), 1,
        createdSeg tr pt4va (pt4_idx (maskVA va)) (fs 0) ++
          [Event.trCall (fs 0) (tr (fs 0))]⟩ : WalkSt).mem
        (tr (fs 0)) (pt3_idx (maskVA va)) = 0 := by
      simp [mem1After, hne0, zeroSt]
    have hd2 := descend_create alloc tr
      ⟨mem1After zeroSt.mem pt4va (pt4_idx (maskVA va)) (fs 0) (tr (fs 0)), 1,
       createdSeg tr pt4va (pt4_idx (maskVA va)) (fs 0) ++
         [Event.trCall (fs 0) (tr (fs 0))]⟩
      (tr (fs 0)) (pt3_idx (maskVA va)) (fs 1) hb0 (hok 1 (by omega))
      hf1a hf1lt hne10
    have hb1 : (⟨mem1After
        (mem1After zeroSt.mem pt4va (pt4_idx (maskVA va)) (fs 0) (tr (fs 0)))
        (tr (fs 0)) (pt3_idx (maskVA va)) (fs 1) (tr (fs 1)), 2,
        (createdSeg tr pt4va (pt4_idx (maskVA va)) (fs 0) ++
          [Event.trCall (fs 0) (tr (fs 0))]) ++
          (createdSeg tr (tr (fs 0)) (pt3_idx (maskVA va)) (fs 1) ++
            [Event.trCall (fs 1) (tr (fs 1))])⟩ : WalkSt).mem
        (tr (fs 1)) (pt2_idx (maskVA va)) = 0 := by
      simp [mem1After, hne10, zeroSt, hne1p]
    have hd3 := descend_fail alloc tr
      ⟨mem1After
        (mem1After zeroSt.mem pt4va (pt4_idx (maskVA va)) (fs 0) (tr (fs 0)))
        (tr (fs 0)) (pt3_idx (maskVA va)) (fs 1) (tr (fs 1)), 2,
       (createdSeg tr pt4va (pt4_idx (maskVA va)) (fs 0) ++
         [Event.trCall (fs 0) (tr (fs 0))]) ++
         (createdSeg tr (tr (fs 0)) (pt3_idx (maskVA va)) (fs 1) ++
           [Event.trCall (fs 1) (tr (fs 1))])⟩
      (tr (fs 1)) (pt2_idx (maskVA va)) .NoMemory
      (by rw [hb1]; rfl) hfail
    refine ⟨⟨mem1After
        (mem1After zeroSt.mem pt4va (pt4_idx (maskVA va)) (fs 0) (tr (fs 0)))
        (tr (fs 0)) (pt3_idx (maskVA va)) (fs 1) (tr (fs 1)), 3,
        createdSeg tr pt4va (pt4_idx (maskVA va)) (fs 0) ++
          ([Event.trCall (fs 0) (tr (fs 0))] ++
            (createdSeg tr (tr (fs 0)) (pt3_idx (maskVA va)) (fs 1) ++
              [Event.trCall (fs 1) (tr (fs 1)),
               Event.allocCall (.error .NoMemory)]))⟩, ?_, rfl, ?_⟩
    · simp at hd2 hd3
      simp [entry, hva, h4, h3, h2, hd1, hd2, hd3, hz, hz2]
    · intro j hj
      interval_cases j
      · have hm : mem1After
            (mem1After zeroSt.mem pt4va (pt4_idx (maskVA va)) (fs 0)
              (tr (fs 0)))
            (tr (fs 0)) (pt3_idx (maskVA va)) (fs 1) (tr (fs 1)) pt4va
            (pt4_idx (maskVA va)) = fs 0 ||| 7 := by
          have hx0 : pt4va ≠ tr (fs 0) := fun h => hne0 h.symm
          have hx1 : pt4va ≠ tr (fs 1) := fun h => hne1p h.symm
          simp [mem1After, hx0, hx1]
        simp only [pathSlot]
        rw [hm]
        exact ⟨(bit_lor7_PWU (fs 0)).1,
          address_lor_small hf0a hf0lt (by norm_num)⟩
      · have hm : mem1After
            (mem1After zeroSt.mem pt4va (pt4_idx (maskVA va)) (fs 0)
              (tr (fs 0)))
            (tr (fs 0)) (pt3_idx (maskVA va)) (fs 1) (tr (fs 1)) (tr (fs 0))
            (pt3_idx (maskVA va)) = fs 1 ||| 7 := by
          simp [mem1After]
        simp only [pathSlot]
        rw [hm]
        exact ⟨(bit_lor7_PWU (fs 1)).1,
          address_lor_small hf1a hf1lt (by norm_num)⟩

/-- Witness for C6 at a concrete input: failure at the second allocation
(`k = 1`), virtual address `0xffff_8000_0000_0000`, identity translation. -/
theorem C6_nomemory_propagation_witness :
    ∃ s1 : WalkSt,
      entry (fun n => if n = 0 then .ok 0x1000 else .error .NoMemory)
          (fun p => p) 0 zeroSt 0xffff800000000000 1 =
        some (s1, .error .NoMemory) ∧
        allocCalls s1.trace = 1 + 1 ∧
        (∀ j, j < 1 →
          Entry.bit (s1.mem
            (pathSlot (fun p => p) 0 0xffff800000000000 (fun m => 0x1000 * (m + 1)) j).1
            (pathSlot (fun p => p) 0 0xffff800000000000 (fun m => 0x1000 * (m + 1)) j).2)
            BitPresent = true ∧
          Entry.address (s1.mem
            (pathSlot (fun p => p) 0 0xffff800000000000 (fun m => 0x1000 * (m + 1)) j).1
            (pathSlot (fun p => p) 0 0xffff800000000000 (fun m => 0x1000 * (m + 1)) j).2) =
            (fun m => 0x1000 * (m + 1)) j) :=
  C6_nomemory_propagation
    (fun n => if n = 0 then .ok 0x1000 else .error .NoMemory) (fun p => p) 0
    0xffff800000000000 (fun m => 0x1000 * (m + 1)) 1 (by decide) (by decide)
    (by decide) (by decide) (by decide) (by decide) (by decide) (by decide)
    (by decide) (by decide) (by decide)

/-- C1: for every level in 1..4 and every virtual address aligned to the
extent of that level, a walk over the all-zero tree with an allocation capability
that never fails (supplying valid, mutually distinct fresh frames) returns
`Ok`, invokes the allocation capability exactly `4 - level` times, zeroes
every newly allocated table via `PageTable::clear` before any entry word
carrying the frame address of that table is written into the parent slot, and
leaves every written (newly created intermediate) entry with Present,
Writable and User set. -/
theorem C1_fresh_walk (alloc : Nat → Except MErr Nat) (tr : Nat → Nat)
    (pt4va va level f0 f1 f2 : Nat)
    (hlev1 : 1 ≤ level) (hlev4 : level ≤ 4)
    (hva : va % levelExtent level = 0)
    (hal0 : alloc 0 = .ok f0) (hal1 : alloc 1 = .ok f1)
    (hal2 : alloc 2 = .ok f2)
    (hf0a : f0 % 4096 = 0) (hf0lt : f0 < 2 ^ 52)
    (hf1a : f1 % 4096 = 0) (hf1lt : f1 < 2 ^ 52)
    (hf2a : f2 % 4096 = 0) (hf2lt : f2 < 2 ^ 52)
    (hne0 : tr f0 ≠ pt4va) (hne1p : tr f1 ≠ pt4va) (hne2p : tr f2 ≠ pt4va)
    (hne10 : tr f1 ≠ tr f0) (hne20 : tr f2 ≠ tr f0) (hne21 : tr f2 ≠ tr f1) :
    ∃ (s1 : WalkSt) (slot : Nat × Nat),
      entry alloc tr pt4va zeroSt va level = some (s1, .ok slot) ∧
        allocCalls s1.trace = 4 - level ∧
        clearedBeforeLinked tr s1.trace ∧
        (∀ p i w, Event.writeEntry p i w ∈ s1.trace →
          Entry.bit (s1.mem p i) BitPresent = true ∧
          Entry.bit (s1.mem p i) BitWritable = true ∧
          Entry.bit (s1.mem p i) BitUser = true) := by
  interval_cases level
  · -- level 1
    have hw := walkZero1 alloc tr pt4va va f0 f1 f2 hva hal0 hal1 hal2
      hf0a hf0lt hf1a hf1lt hf2a hf2lt hne0 hne10 hne21
    have had0 : Entry.address f0 = f0 := address_self hf0a hf0lt
    have had0b1 : Entry.address (f0 ||| 1) = f0 :=
      address_lor_small hf0a hf0lt (by norm_num)
    have had0b3 : Entry.address (f0 ||| 3) = f0 :=
      address_lor_small hf0a hf0lt (by norm_num)
    have had0b7 : Entry.address (f0 ||| 7) = f0 :=
      address_lor_small hf0a hf0lt (by norm_num)
    have had1 : Entry.address f1 = f1 := address_self hf1a hf1lt
    have had1b1 : Entry.address (f1 ||| 1) = f1 :=
      address_lor_small hf1a hf1lt (by norm_num)
    have had1b3 : Entry.address (f1 ||| 3) = f1 :=
      address_lor_small hf1a hf1lt (by norm_num)
    have had1b7 : Entry.address (f1 ||| 7) = f1 :=
      address_lor_small hf1a hf1lt (by norm_num)
    have had2 : Entry.address f2 = f2 := address_self hf2a hf2lt
    have had2b1 : Entry.address (f2 ||| 1) = f2 :=
      address_lor_small hf2a hf2lt (by norm_num)
    have had2b3 : Entry.address (f2 ||| 3) = f2 :=
      address_lor_small hf2a hf2lt (by norm_num)
    have had2b7 : Entry.address (f2 ||| 7) = f2 :=
      address_lor_small hf2a hf2lt (by norm_num)
    have hne01f : f0 ≠ f1 := fun h => hne10 (congrArg tr h.symm)
    have hne02f : f0 ≠ f2 := fun h => hne20 (congrArg tr h.symm)
    have hne12f : f1 ≠ f2 := fun h => hne21 (congrArg tr h.symm)
    have hne10f : f1 ≠ f0 := fun h => hne10 (congrArg tr h)
    have hne20f : f2 ≠ f0 := fun h => hne20 (congrArg tr h)
    have hne21f : f2 ≠ f1 := fun h => hne21 (congrArg tr h)
    refine ⟨_, _, hw, rfl, ?_, ?_⟩
    · intro f hf
      simp [createdSeg] at hf
      rcases hf with hf | hf | hf <;> subst hf
      · constructor
        · simp [createdSeg]
        · intro p i w hw2 haddr
          simp [createdSeg] at hw2
          rcases hw2 with ⟨hp, hi, hwv⟩ | ⟨hp, hi, hwv⟩ | ⟨hp, hi, hwv⟩ |
            ⟨hp, hi, hwv⟩ | ⟨hp, hi, hwv⟩ | ⟨hp, hi, hwv⟩ | ⟨hp, hi, hwv⟩ |
            ⟨hp, hi, hwv⟩ | ⟨hp, hi, hwv⟩ | ⟨hp, hi, hwv⟩ | ⟨hp, hi, hwv⟩ |
            ⟨hp, hi, hwv⟩ <;> subst hp <;> subst hi <;> subst hwv
          · exact ⟨2, 3, by omega, rfl, rfl⟩
          · exact ⟨2, 4, by omega, rfl, rfl⟩
          · exact ⟨2, 5, by omega, rfl, rfl⟩
          · exact ⟨2, 6, by omega, rfl, rfl⟩
          · rw [had1] at haddr; exact absurd haddr hne10f
          · rw [had1b1] at haddr; exact absurd haddr hne10f
          · rw [had1b3] at haddr; exact absurd haddr hne10f
          · rw [had1b7] at haddr; exact absurd haddr hne10f
          · rw [had2] at haddr; exact absurd haddr hne20f
          · rw [had2b1] at haddr; exact absurd haddr hne20f
          · rw [had2b3] at haddr; exact absurd haddr hne20f
          · rw [had2b7] at haddr; exact absurd haddr hne20f
      · constructor
        · simp [createdSeg]
        · intro p i w hw2 haddr
          simp [createdSeg] at hw2
          rcases hw2 with ⟨hp, hi, hwv⟩ | ⟨hp, hi, hwv⟩ | ⟨hp, hi, hwv⟩ |
            ⟨hp, hi, hwv⟩ | ⟨hp, hi, hwv⟩ | ⟨hp, hi, hwv⟩ | ⟨hp, hi, hwv⟩ |
            ⟨hp, hi, hwv⟩ | ⟨hp, hi, hwv⟩ | ⟨hp, hi, hwv⟩ | ⟨hp, hi, hwv⟩ |
            ⟨hp, hi, hwv⟩ <;> subst hp <;> subst hi <;> subst hwv
          · rw [had0] at haddr; exact absurd haddr hne01f
          · rw [had0b1] at haddr; exact absurd haddr hne01f
          · rw [had0b3] at haddr; exact absurd haddr hne01f
          · rw [had0b7] at haddr; exact absurd haddr hne01f
          · exact ⟨10, 11, by omega, rfl, rfl⟩
          · exact ⟨10, 12, by omega, rfl, rfl⟩
          · exact ⟨10, 13, by omega, rfl, rfl⟩
          · exact ⟨10, 14, by omega, rfl, rfl⟩
          · rw [had2] at haddr; exact absurd haddr hne21f
          · rw [had2b1] at haddr; exact absurd haddr hne21f
          · rw [had2b3] at haddr; exact absurd haddr hne21f
          · rw [had2b7] at haddr; exact absurd haddr hne21f
      · constructor
        · simp [createdSeg]
        · intro p i w hw2 haddr
          simp [createdSeg] at hw2
          rcases hw2 with ⟨hp, hi, hwv⟩ | ⟨hp, hi, hwv⟩ | ⟨hp, hi, hwv⟩ |
            ⟨hp, hi, hwv⟩ | ⟨hp, hi, hwv⟩ | ⟨hp, hi, hwv⟩ | ⟨hp, hi, hwv⟩ |
            ⟨hp, hi, hwv⟩ | ⟨hp, hi, hwv⟩ | ⟨hp, hi, hwv⟩ | ⟨hp, hi, hwv⟩ |
            ⟨hp, hi, hwv⟩ <;> subst hp <;> subst hi <;> subst hwv
          · rw [had0] at haddr; exact absurd haddr hne02f
          · rw [had0b1] at haddr; exact absurd haddr hne02f
          · rw [had0b3] at haddr; exact absurd haddr hne02f
          · rw [had0b7] at haddr; exact absurd haddr hne02f
          · rw [had1] at haddr; exact absurd haddr hne12f
          · rw [had1b1] at haddr; exact absurd haddr hne12f
          · rw [had1b3] at haddr; exact absurd haddr hne12f
          · rw [had1b7] at haddr; exact absurd haddr hne12f
          · exact ⟨18, 19, by omega, rfl, rfl⟩
          · exact ⟨18, 20, by omega, rfl, rfl⟩
          · exact ⟨18, 21, by omega, rfl, rfl⟩
          · exact ⟨18, 22, by omega, rfl, rfl⟩
    · intro p i w hw2
      simp [createdSeg] at hw2
      have hx0 : pt4va ≠ tr f0 := fun h => hne0 h.symm
      have hx1 : pt4va ≠ tr f1 := fun h => hne1p h.symm
      have hx2 : pt4va ≠ tr f2 := fun h => hne2p h.symm
      have hy01 : tr f0 ≠ tr f1 := fun h => hne10 h.symm
      have hy02 : tr f0 ≠ tr f2 := fun h => hne20 h.symm
      have key1 : mem1After
          (mem1After
            (mem1After zeroSt.mem pt4va (pt4_idx (maskVA va)) f0 (tr f0))
            (tr f0) (pt3_idx (maskVA va)) f1 (tr f1))
          (tr f1) (pt2_idx (maskVA va)) f2 (tr f2) pt4va
          (pt4_idx (maskVA va)) = f0 ||| 7 := by
        simp [mem1After, hx0, hx1, hx2]
      have key2 : mem1After
          (mem1After
            (mem1After zeroSt.mem pt4va (pt4_idx (maskVA va)) f0 (tr f0))
            (tr f0) (pt3_idx (maskVA va)) f1 (tr f1))
          (tr f1) (pt2_idx (maskVA va)) f2 (tr f2) (tr f0)
          (pt3_idx (maskVA va)) = f1 ||| 7 := by
        simp [mem1After, hy01, hy02]
      have key3 : mem1After
          (mem1After
            (mem1After zeroSt.mem pt4va (pt4_idx (maskVA va)) f0 (tr f0))
            (tr f0) (pt3_idx (maskVA va)) f1 (tr f1))
          (tr f1) (pt2_idx (maskVA va)) f2 (tr f2) (tr f1)
          (pt2_idx (maskVA va)) = f2 ||| 7 := by
        simp [mem1After]
      rcases hw2 with ⟨hp, hi, hwv⟩ | ⟨hp, hi, hwv⟩ | ⟨hp, hi, hwv⟩ |
        ⟨hp, hi, hwv⟩ | ⟨hp, hi, hwv⟩ | ⟨hp, hi, hwv⟩ | ⟨hp, hi, hwv⟩ |
        ⟨hp, hi, hwv⟩ | ⟨hp, hi, hwv⟩ | ⟨hp, hi, hwv⟩ | ⟨hp, hi, hwv⟩ |
        ⟨hp, hi, hwv⟩ <;> subst hp <;> subst hi <;>
        first
        | (dsimp only; rw [key1]; exact bit_lor7_PWU f0)
        | (dsimp only; rw [key2]; exact bit_lor7_PWU f1)
        | (dsimp only; rw [key3]; exact bit_lor7_PWU f2)
  · -- level 2
    have hw := walkZero2 alloc tr pt4va va f0 f1 hva hal0 hal1
      hf0a hf0lt hf1a hf1lt hne0 hne10
    have had0 : Entry.address f0 = f0 := address_self hf0a hf0lt
    have had0b1 : Entry.address (f0 ||| 1) = f0 :=
      address_lor_small hf0a hf0lt (by norm_num)
    have had0b3 : Entry.address (f0 ||| 3) = f0 :=
      address_lor_small hf0a hf0lt (by norm_num)
    have had0b7 : Entry.address (f0 ||| 7) = f0 :=
      address_lor_small hf0a hf0lt (by norm_num)
    have had1 : Entry.address f1 = f1 := address_self hf1a hf1lt
    have had1b1 : Entry.address (f1 ||| 1) = f1 :=
      address_lor_small hf1a hf1lt (by norm_num)
    have had1b3 : Entry.address (f1 ||| 3) = f1 :=
      address_lor_small hf1a hf1lt (by norm_num)
    have had1b7 : Entry.address (f1 ||| 7) = f1 :=
      address_lor_small hf1a hf1lt (by norm_num)
    have hne01f : f0 ≠ f1 := fun h => hne10 (congrArg tr h.symm)
    have hne10f : f1 ≠ f0 := fun h => hne10 (congrArg tr h)
    refine ⟨_, _, hw, rfl, ?_, ?_⟩
    · intro f hf
      simp [createdSeg] at hf
      rcases hf with hf | hf <;> subst hf
      · constructor
        · simp [createdSeg]
        · intro p i w hw2 haddr
          simp [createdSeg] at hw2
          rcases hw2 with ⟨hp, hi, hwv⟩ | ⟨hp, hi, hwv⟩ | ⟨hp, hi, hwv⟩ |
            ⟨hp, hi, hwv⟩ | ⟨hp, hi, hwv⟩ | ⟨hp, hi, hwv⟩ | ⟨hp, hi, hwv⟩ |
            ⟨hp, hi, hwv⟩ <;> subst hp <;> subst hi <;> subst hwv
          · exact ⟨2, 3, by omega, rfl, rfl⟩
          · exact ⟨2, 4, by omega, rfl, rfl⟩
          · exact ⟨2, 5, by omega, rfl, rfl⟩
          · exact ⟨2, 6, by omega, rfl, rfl⟩
          · rw [had1] at haddr; exact absurd haddr hne10f
          · rw [had1b1] at haddr; exact absurd haddr hne10f
          · rw [had1b3] at haddr; exact absurd haddr hne10f
          · rw [had1b7] at haddr; exact absurd haddr hne10f
      · constructor
        · simp [createdSeg]
        · intro p i w hw2 haddr
          simp [createdSeg] at hw2
          rcases hw2 with ⟨hp, hi, hwv⟩ | ⟨hp, hi, hwv⟩ | ⟨hp, hi, hwv⟩ |
            ⟨hp, hi, hwv⟩ | ⟨hp, hi, hwv⟩ | ⟨hp, hi, hwv⟩ | ⟨hp, hi, hwv⟩ |
            ⟨hp, hi, hwv⟩ <;> subst hp <;> subst hi <;> subst hwv
          · rw [had0] at haddr; exact absurd haddr hne01f
          · rw [had0b1] at haddr; exact absurd haddr hne01f
          · rw [had0b3] at haddr; exact absurd haddr hne01f
          · rw [had0b7] at haddr; exact absurd haddr hne01f
          · exact ⟨10, 11, by omega, rfl, rfl⟩
          · exact ⟨10, 12, by omega, rfl, rfl⟩
          · exact ⟨10, 13, by omega, rfl, rfl⟩
          · exact ⟨10, 14, by omega, rfl, rfl⟩
    · intro p i w hw2
      simp [createdSeg] at hw2
      have hx0 : pt4va ≠ tr f0 := fun h => hne0 h.symm
      have hx1 : pt4va ≠ tr f1 := fun h => hne1p h.symm
      have key1 : mem1After
          (mem1After zeroSt.mem pt4va (pt4_idx (maskVA va)) f0 (tr f0))
          (tr f0) (pt3_idx (maskVA va)) f1 (tr f1) pt4va
          (pt4_idx (maskVA va)) = f0 ||| 7 := by
        simp [mem1After, hx0, hx1]
      have key2 : mem1After
          (mem1After zeroSt.mem pt4va (pt4_idx (maskVA va)) f0 (tr f0))
          (tr f0) (pt3_idx (maskVA va)) f1 (tr f1) (tr f0)
          (pt3_idx (maskVA va)) = f1 ||| 7 := by
        simp [mem1After]
      rcases hw2 with ⟨hp, hi, hwv⟩ | ⟨hp, hi, hwv⟩ | ⟨hp, hi, hwv⟩ |
        ⟨hp, hi, hwv⟩ | ⟨hp, hi, hwv⟩ | ⟨hp, hi, hwv⟩ | ⟨hp, hi, hwv⟩ |
        ⟨hp, hi, hwv⟩ <;> subst hp <;> subst hi <;>
        first
        | (dsimp only; rw [key1]; exact bit_lor7_PWU f0)
        | (dsimp only; rw [key2]; exact bit_lor7_PWU f1)
  · -- level 3
    have hw := walkZero3 alloc tr pt4va va f0 hva hal0 hf0a hf0lt hne0
    refine ⟨_, _, hw, rfl, ?_, ?_⟩
    · intro f hf
      simp [createdSeg] at hf
      subst hf
      constructor
      · simp [createdSeg]
      · intro p i w hw2 haddr
        simp [createdSeg] at hw2
        rcases hw2 with ⟨hp, hi, hwv⟩ | ⟨hp, hi, hwv⟩ | ⟨hp, hi, hwv⟩ |
          ⟨hp, hi, hwv⟩ <;> subst hp <;> subst hi <;> subst hwv
        · exact ⟨2, 3, by omega, rfl, rfl⟩
        · exact ⟨2, 4, by omega, rfl, rfl⟩
        · exact ⟨2, 5, by omega, rfl, rfl⟩
        · exact ⟨2, 6, by omega, rfl, rfl⟩
    · intro p i w hw2
      simp [createdSeg] at hw2
      have key : mem1After zeroSt.mem pt4va (pt4_idx (maskVA va)) f0 (tr f0)
          pt4va (pt4_idx (maskVA va)) = f0 ||| 7 := by
        simp [mem1After]
      rcases hw2 with ⟨hp, hi, hwv⟩ | ⟨hp, hi, hwv⟩ | ⟨hp, hi, hwv⟩ |
        ⟨hp, hi, hwv⟩ <;> subst hp <;> subst hi <;>
        (dsimp only; rw [key]; exact bit_lor7_PWU f0)
  · -- level 4
    have hw := entry_level4 alloc tr pt4va zeroSt va hva
    refine ⟨_, _, hw, rfl, ?_, ?_⟩
    · intro f hf
      simp [zeroSt] at hf
    · intro p i w hw2
      simp [zeroSt] at hw2

/-- Witness for C1 at the end-to-end scenario of the spec: level 1, virtual
address `0xffff_8000_0000_0000`, a monotone allocator starting at frame
`0x1000`, identity translation. -/
theorem C1_fresh_walk_witness :
    ∃ (s1 : WalkSt) (slot : Nat × Nat),
      entry (fun n => .ok (0x1000 * (n + 1))) (fun p => p) 0 zeroSt
          0xffff800000000000 1 = some (s1, .ok slot) ∧
        allocCalls s1.trace = 4 - 1 ∧
        clearedBeforeLinked (fun p => p) s1.trace ∧
        (∀ p i w, Event.writeEntry p i w ∈ s1.trace →
          Entry.bit (s1.mem p i) BitPresent = true ∧
          Entry.bit (s1.mem p i) BitWritable = true ∧
          Entry.bit (s1.mem p i) BitUser = true) :=
  C1_fresh_walk (fun n => .ok (0x1000 * (n + 1))) (fun p => p) 0
    0xffff800000000000 1 0x1000 0x2000 0x3000 (by decide) (by decide)
    (by decide) (by decide) (by decide) (by decide) (by decide) (by decide)
    (by decide) (by decide) (by decide) (by decide) (by decide) (by decide)
    (by decide) (by decide) (by decide) (by decide)

/-- C7 (counterexample): idempotence as stated fails on a tree containing a
non-Present entry with a stale Huge bit (word `0x80` in the root slot).
The first level-3 call treats the entry as absent, creates a table —
`set_address` preserves the stale Huge bit, so the entry becomes Present and
Huge — and succeeds, returning the slot `(0x1000, 0)`; the second call with
the same arguments then fails with `Err(Overlap)` instead of returning the
identical slot. -/
theorem C7_idempotence_counterexample :
    Option.map (fun p => p.2)
        (entry (fun n => .ok (0x1000 * (n + 1))) (fun p => p) 0
          ⟨fun a i => if a = 0 ∧ i = 0 then 0x80 else 0, 0, []⟩ 0 3) =
      some (.ok (0x1000, 0)) ∧
    ((entry (fun n => .ok (0x1000 * (n + 1))) (fun p => p) 0
          ⟨fun a i => if a = 0 ∧ i = 0 then 0x80 else 0, 0, []⟩ 0 3).bind
        (fun q =>
          Option.map (fun p => p.2)
            (entry (fun n => .ok (0x1000 * (n + 1))) (fun p => p) 0 q.1 0 3))) =
      some (.error .Overlap) := by
  constructor
  · rfl
  · rfl

/-- C7 (amended): on a tree whose non-Present entries are all-zero words —
verified here from the all-zero tree, the tree shape for which the stale
Huge bit of the counterexample cannot occur — a successful
`entry (va, level)` call followed by a second call with the same arguments
against the unmodified tree returns the identical underlying slot (same
table, same index), invokes the allocation capability zero times (any
second allocator, never consulted, and no change in the allocation-call
count), and performs no memory mutation. -/
theorem C7_idempotence_amended (alloc alloc2 : Nat → Except MErr Nat)
    (tr : Nat → Nat) (pt4va va level f0 f1 f2 : Nat)
    (hlev1 : 1 ≤ level) (hlev4 : level ≤ 4)
    (hva : va % levelExtent level = 0)
    (hal0 : alloc 0 = .ok f0) (hal1 : alloc 1 = .ok f1)
    (hal2 : alloc 2 = .ok f2)
    (hf0a : f0 % 4096 = 0) (hf0lt : f0 < 2 ^ 52)
    (hf1a : f1 % 4096 = 0) (hf1lt : f1 < 2 ^ 52)
    (hf2a : f2 % 4096 = 0) (hf2lt : f2 < 2 ^ 52)
    (hne0 : tr f0 ≠ pt4va) (hne1p : tr f1 ≠ pt4va) (hne2p : tr f2 ≠ pt4va)
    (hne10 : tr f1 ≠ tr f0) (hne20 : tr f2 ≠ tr f0) (hne21 : tr f2 ≠ tr f1) :
    ∃ (s1 s2 : WalkSt) (slot : Nat × Nat),
      entry alloc tr pt4va zeroSt va level = some (s1, .ok slot) ∧
        entry alloc2 tr pt4va s1 va level = some (s2, .ok slot) ∧
        allocCalls s2.trace = allocCalls s1.trace ∧
        (∀ a i, s2.mem a i = s1.mem a i) := by
  interval_cases level
  · -- level 1
    have hw := walkZero1 alloc tr pt4va va f0 f1 f2 hva hal0 hal1 hal2
      hf0a hf0lt hf1a hf1lt hf2a hf2lt hne0 hne10 hne21
    have hx0 : pt4va ≠ tr f0 := fun h => hne0 h.symm
    have hx1 : pt4va ≠ tr f1 := fun h => hne1p h.symm
    have hx2 : pt4va ≠ tr f2 := fun h => hne2p h.symm
    have hy01 : tr f0 ≠ tr f1 := fun h => hne10 h.symm
    have hy02 : tr f0 ≠ tr f2 := fun h => hne20 h.symm
    have key1 : mem1After
        (mem1After
          (mem1After zeroSt.mem pt4va (pt4_idx (maskVA va)) f0 (tr f0))
          (tr f0) (pt3_idx (maskVA va)) f1 (tr f1))
        (tr f1) (pt2_idx (maskVA va)) f2 (tr f2) pt4va
        (pt4_idx (maskVA va)) = f0 ||| 7 := by
      simp [mem1After, hx0, hx1, hx2]
    have key2 : mem1After
        (mem1After
          (mem1After zeroSt.mem pt4va (pt4_idx (maskVA va)) f0 (tr f0))
          (tr f0) (pt3_idx (maskVA va)) f1 (tr f1))
        (tr f1) (pt2_idx (maskVA va)) f2 (tr f2) (tr f0)
        (pt3_idx (maskVA va)) = f1 ||| 7 := by
      simp [mem1After, hy01, hy02]
    have key3 : mem1After
        (mem1After
          (mem1After zeroSt.mem pt4va (pt4_idx (maskVA va)) f0 (tr f0))
          (tr f0) (pt3_idx (maskVA va)) f1 (tr f1))
        (tr f1) (pt2_idx (maskVA va)) f2 (tr f2) (tr f1)
        (pt2_idx (maskVA va)) = f2 ||| 7 := by
      simp [mem1After]
    have h40 : Entry.bit (mem1After
        (mem1After
          (mem1After zeroSt.mem pt4va (pt4_idx (maskVA va)) f0 (tr f0))
          (tr f0) (pt3_idx (maskVA va)) f1 (tr f1))
        (tr f1) (pt2_idx (maskVA va)) f2 (tr f2) pt4va
        (pt4_idx (maskVA va))) BitPresent = true := by
      rw [key1]; exact (bit_lor7_PWU f0).1
    have h47 : Entry.bit (mem1After
        (mem1After
          (mem1After zeroSt.mem pt4va (pt4_idx (maskVA va)) f0 (tr f0))
          (tr f0) (pt3_idx (maskVA va)) f1 (tr f1))
        (tr f1) (pt2_idx (maskVA va)) f2 (tr f2) pt4va
        (pt4_idx (maskVA va))) BitHuge = false := by
      rw [key1]; exact bit_lor7_huge hf0a
    have ht3 : tr (Entry.address (mem1After
        (mem1After
          (mem1After zeroSt.mem pt4va (pt4_idx (maskVA va)) f0 (tr f0))
          (tr f0) (pt3_idx (maskVA va)) f1 (tr f1))
        (tr f1) (pt2_idx (maskVA va)) f2 (tr f2) pt4va
        (pt4_idx (maskVA va)))) = tr f0 := by
      rw [key1, address_lor_small hf0a hf0lt (by norm_num)]
    have h30 : Entry.bit (mem1After
        (mem1After
          (mem1After zeroSt.mem pt4va (pt4_idx (maskVA va)) f0 (tr f0))
          (tr f0) (pt3_idx (maskVA va)) f1 (tr f1))
        (tr f1) (pt2_idx (maskVA va)) f2 (tr f2) (tr f0)
        (pt3_idx (maskVA va))) BitPresent = true := by
      rw [key2]; exact (bit_lor7_PWU f1).1
    have h37 : Entry.bit (mem1After
        (mem1After
          (mem1After zeroSt.mem pt4va (pt4_idx (maskVA va)) f0 (tr f0))
          (tr f0) (pt3_idx (maskVA va)) f1 (tr f1))
        (tr f1) (pt2_idx (maskVA va)) f2 (tr f2) (tr f0)
        (pt3_idx (maskVA va))) BitHuge = false := by
      rw [key2]; exact bit_lor7_huge hf1a
    have ht2 : tr (Entry.address (mem1After
        (mem1After
          (mem1After zeroSt.mem pt4va (pt4_idx (maskVA va)) f0 (tr f0))
          (tr f0) (pt3_idx (maskVA va)) f1 (tr f1))
        (tr f1) (pt2_idx (maskVA va)) f2 (tr f2) (tr f0)
        (pt3_idx (maskVA va)))) = tr f1 := by
      rw [key2, address_lor_small hf1a hf1lt (by norm_num)]
    have h20 : Entry.bit (mem1After
        (mem1After
          (mem1After zeroSt.mem pt4va (pt4_idx (maskVA va)) f0 (tr f0))
          (tr f0) (pt3_idx (maskVA va)) f1 (tr f1))
        (tr f1) (pt2_idx (maskVA va)) f2 (tr f2) (tr f1)
        (pt2_idx (maskVA va))) BitPresent = true := by
      rw [key3]; exact (bit_lor7_PWU f2).1
    have h27 : Entry.bit (mem1After
        (mem1After
          (mem1After zeroSt.mem pt4va (pt4_idx (maskVA va)) f0 (tr f0))
          (tr f0) (pt3_idx (maskVA va)) f1 (tr f1))
        (tr f1) (pt2_idx (maskVA va)) f2 (tr f2) (tr f1)
        (pt2_idx (maskVA va))) BitHuge = false := by
      rw [key3]; exact bit_lor7_huge hf2a
    have hp1 := presentPath1 alloc2 tr pt4va
      ⟨mem1After
        (mem1After
          (mem1After zeroSt.mem pt4va (pt4_idx (maskVA va)) f0 (tr f0))
          (tr f0) (pt3_idx (maskVA va)) f1 (tr f1))
        (tr f1) (pt2_idx (maskVA va)) f2 (tr f2), 3,
       createdSeg tr pt4va (pt4_idx (maskVA va)) f0 ++
         ([Event.trCall f0 (tr f0)] ++
           (createdSeg tr (tr f0) (pt3_idx (maskVA va)) f1 ++
             ([Event.trCall f1 (tr f1)] ++
               (createdSeg tr (tr f1) (pt2_idx (maskVA va)) f2 ++
                 [Event.trCall f2 (tr f2)]))))⟩
      va (tr f0) (tr f1) hva h40 h47 ht3 h30 h37 ht2 h20 h27
    have haddr2 : Entry.address (mem1After
        (mem1After
          (mem1After zeroSt.mem pt4va (pt4_idx (maskVA va)) f0 (tr f0))
          (tr f0) (pt3_idx (maskVA va)) f1 (tr f1))
        (tr f1) (pt2_idx (maskVA va)) f2 (tr f2) (tr f1)
        (pt2_idx (maskVA va))) = f2 := by
      rw [key3]; exact address_lor_small hf2a hf2lt (by norm_num)
    rw [show (⟨mem1After
        (mem1After
          (mem1After zeroSt.mem pt4va (pt4_idx (maskVA va)) f0 (tr f0))
          (tr f0) (pt3_idx (maskVA va)) f1 (tr f1))
        (tr f1) (pt2_idx (maskVA va)) f2 (tr f2), 3,
       createdSeg tr pt4va (pt4_idx (maskVA va)) f0 ++
         ([Event.trCall f0 (tr f0)] ++
           (createdSeg tr (tr f0) (pt3_idx (maskVA va)) f1 ++
             ([Event.trCall f1 (tr f1)] ++
               (createdSeg tr (tr f1) (pt2_idx (maskVA va)) f2 ++
                 [Event.trCall f2 (tr f2)]))))⟩ : WalkSt).mem =
      mem1After
        (mem1After
          (mem1After zeroSt.mem pt4va (pt4_idx (maskVA va)) f0 (tr f0))
          (tr f0) (pt3_idx (maskVA va)) f1 (tr f1))
        (tr f1) (pt2_idx (maskVA va)) f2 (tr f2) from rfl, haddr2] at hp1
    refine ⟨_, _, _, hw, hp1, ?_, fun a i => rfl⟩
    rw [allocCalls_append]
    rfl
  · -- level 2
    have hw := walkZero2 alloc tr pt4va va f0 f1 hva hal0 hal1
      hf0a hf0lt hf1a hf1lt hne0 hne10
    have hx0 : pt4va ≠ tr f0 := fun h => hne0 h.symm
    have hx1 : pt4va ≠ tr f1 := fun h => hne1p h.symm
    have key1 : mem1After
        (mem1After zeroSt.mem pt4va (pt4_idx (maskVA va)) f0 (tr f0))
        (tr f0) (pt3_idx (maskVA va)) f1 (tr f1) pt4va
        (pt4_idx (maskVA va)) = f0 ||| 7 := by
      simp [mem1After, hx0, hx1]
    have key2 : mem1After
        (mem1After zeroSt.mem pt4va (pt4_idx (maskVA va)) f0 (tr f0))
        (tr f0) (pt3_idx (maskVA va)) f1 (tr f1) (tr f0)
        (pt3_idx (maskVA va)) = f1 ||| 7 := by
      simp [mem1After]
    have h40 : Entry.bit (mem1After
        (mem1After zeroSt.mem pt4va (pt4_idx (maskVA va)) f0 (tr f0))
        (tr f0) (pt3_idx (maskVA va)) f1 (tr f1) pt4va
        (pt4_idx (maskVA va))) BitPresent = true := by
      rw [key1]; exact (bit_lor7_PWU f0).1
    have h47 : Entry.bit (mem1After
        (mem1After zeroSt.mem pt4va (pt4_idx (maskVA va)) f0 (tr f0))
        (tr f0) (pt3_idx (maskVA va)) f1 (tr f1) pt4va
        (pt4_idx (maskVA va))) BitHuge = false := by
      rw [key1]; exact bit_lor7_huge hf0a
    have ht3 : tr (Entry.address (mem1After
        (mem1After zeroSt.mem pt4va (pt4_idx (maskVA va)) f0 (tr f0))
        (tr f0) (pt3_idx (maskVA va)) f1 (tr f1) pt4va
        (pt4_idx (maskVA va)))) = tr f0 := by
      rw [key1, address_lor_small hf0a hf0lt (by norm_num)]
    have h30 : Entry.bit (mem1After
        (mem1After zeroSt.mem pt4va (pt4_idx (maskVA va)) f0 (tr f0))
        (tr f0) (pt3_idx (maskVA va)) f1 (tr f1) (tr f0)
        (pt3_idx (maskVA va))) BitPresent = true := by
      rw [key2]; exact (bit_lor7_PWU f1).1
    have h37 : Entry.bit (mem1After
        (mem1After zeroSt.mem pt4va (pt4_idx (maskVA va)) f0 (tr f0))
        (tr f0) (pt3_idx (maskVA va)) f1 (tr f1) (tr f0)
        (pt3_idx (maskVA va))) BitHuge = false := by
      rw [key2]; exact bit_lor7_huge hf1a
    have ht2 : tr (Entry.address (mem1After
        (mem1After zeroSt.mem pt4va (pt4_idx (maskVA va)) f0 (tr f0))
        (tr f0) (pt3_idx (maskVA va)) f1 (tr f1) (tr f0)
        (pt3_idx (maskVA va)))) = tr f1 := by
      rw [key2, address_lor_small hf1a hf1lt (by norm_num)]
    have hp2 := presentPath2 alloc2 tr pt4va
      ⟨mem1After
        (mem1After zeroSt.mem pt4va (pt4_idx (maskVA va)) f0 (tr f0))
        (tr f0) (pt3_idx (maskVA va)) f1 (tr f1), 2,
       createdSeg tr pt4va (pt4_idx (maskVA va)) f0 ++
         ([Event.trCall f0 (tr f0)] ++
           (createdSeg tr (tr f0) (pt3_idx (maskVA va)) f1 ++
             [Event.trCall f1 (tr f1)]))⟩
      va (tr f0) (tr f1) hva h40 h47 ht3 h30 h37 ht2
    refine ⟨_, _, _, hw, hp2, ?_, fun a i => rfl⟩
    rw [allocCalls_append]
    rfl
  · -- level 3
    have hw := walkZero3 alloc tr pt4va va f0 hva hal0 hf0a hf0lt hne0
    have key1 : mem1After zeroSt.mem pt4va (pt4_idx (maskVA va)) f0 (tr f0)
        pt4va (pt4_idx (maskVA va)) = f0 ||| 7 := by
      simp [mem1After]
    have h40 : Entry.bit (mem1After zeroSt.mem pt4va (pt4_idx (maskVA va)) f0
        (tr f0) pt4va (pt4_idx (maskVA va))) BitPresent = true := by
      rw [key1]; exact (bit_lor7_PWU f0).1
    have h47 : Entry.bit (mem1After zeroSt.mem pt4va (pt4_idx (maskVA va)) f0
        (tr f0) pt4va (pt4_idx (maskVA va))) BitHuge = false := by
      rw [key1]; exact bit_lor7_huge hf0a
    have ht3 : tr (Entry.address (mem1After zeroSt.mem pt4va
        (pt4_idx (maskVA va)) f0 (tr f0) pt4va (pt4_idx (maskVA va)))) =
        tr f0 := by
      rw [key1, address_lor_small hf0a hf0lt (by norm_num)]
    have hp3 := presentPath3 alloc2 tr pt4va
      ⟨mem1After zeroSt.mem pt4va (pt4_idx (maskVA va)) f0 (tr f0), 1,
       createdSeg tr pt4va (pt4_idx (maskVA va)) f0 ++
         [Event.trCall f0 (tr f0)]⟩
      va (tr f0) hva h40 h47 ht3
    refine ⟨_, _, _, hw, hp3, ?_, fun a i => rfl⟩
    rw [allocCalls_append]
    rfl
  · -- level 4
    have hw := entry_level4 alloc tr pt4va zeroSt va hva
    have hw2 := entry_level4 alloc2 tr pt4va zeroSt va hva
    exact ⟨zeroSt, zeroSt, _, hw, hw2, rfl, fun a i => rfl⟩

/-- Witness for C7 (amended) at a concrete input: level 1, virtual address
`0xffff_8000_0000_0000`, monotone allocator, identity translation; the
second call runs against a failing allocator and never consults it. -/
theorem C7_idempotence_amended_witness :
    ∃ (s1 s2 : WalkSt) (slot : Nat × Nat),
      entry (fun n => .ok (0x1000 * (n + 1))) (fun p => p) 0 zeroSt
          0xffff800000000000 1 = some (s1, .ok slot) ∧
        entry (fun _ => .error .NoMemory) (fun p => p) 0 s1
          0xffff800000000000 1 = some (s2, .ok slot) ∧
        allocCalls s2.trace = allocCalls s1.trace ∧
        (∀ a i, s2.mem a i = s1.mem a i) :=
  C7_idempotence_amended (fun n => .ok (0x1000 * (n + 1)))
    (fun _ => .error .NoMemory) (fun p => p) 0 0xffff800000000000 1
    0x1000 0x2000 0x3000 (by decide) (by decide) (by decide) (by decide)
    (by decide) (by decide) (by decide) (by decide) (by decide) (by decide)
    (by decide) (by decide) (by decide) (by decide) (by decide) (by decide)
    (by decide) (by decide)

end Mmu
